import Mathlib

/-!
Shallow embedding of the B+Tree database engine (src/db.hpp, src/main.cpp).

Pages are modelled as structured values rather than raw 4096-byte buffers:
a leaf page carries its ordered cell list `(key, row)`, an internal page its
`(child, key)` cell list plus the separate right-child pointer, mirroring the
on-page layouts of db.hpp.  The cell list stands for the first `num_cells`
(resp. `num_keys`) cells of the byte array; bytes beyond the live count are
not modelled.  The pager state keeps the merged cache/disk view as a total
function from page numbers to pages (unwritten pages read as zeroed buffers,
exactly as pager_get_page's memset).  Machine integers are Nat: all involved
quantities (page numbers, cell counts, keys) stay far below 2^32 on the
modelled paths, and the one place where uint32 wraparound could occur
(decrement of a zero cell count) is noted at its definition.

Recursive tree walks (table_find, get_node_max_key, the underflow cascade,
the validator) take an explicit fuel parameter so every definition is
structurally recursive and kernel-reducible; the C code recurses through
parent pointers instead.  Exhausted fuel returns the failure value or leaves
the state unchanged and never occurs on the concrete states evaluated below.
-/

namespace DBVerify

/-! ## Constants (db.hpp) -/

def PAGE_SIZE : Nat := 4096
def TABLE_MAX_PAGES : Nat := 100000
def DB_FILE_HEADER_SIZE : Nat := 8
def ID_SIZE : Nat := 4
def USERNAME_SIZE : Nat := 32
def EMAIL_SIZE : Nat := 255
def ROW_SIZE : Nat := ID_SIZE + USERNAME_SIZE + EMAIL_SIZE
def LEAF_NODE_HEADER_SIZE : Nat := 14
def LEAF_NODE_CELL_SIZE : Nat := 4 + ROW_SIZE
def LEAF_NODE_MAX_CELLS : Nat := (PAGE_SIZE - LEAF_NODE_HEADER_SIZE) / LEAF_NODE_CELL_SIZE
def LEAF_NODE_MIN_CELLS : Nat := LEAF_NODE_MAX_CELLS / 2
def INTERNAL_NODE_HEADER_SIZE : Nat := 14
def INTERNAL_NODE_CELL_SIZE : Nat := 8
def INTERNAL_NODE_MAX_KEYS : Nat :=
  (PAGE_SIZE - INTERNAL_NODE_HEADER_SIZE) / INTERNAL_NODE_CELL_SIZE
def INTERNAL_NODE_MIN_KEYS : Nat := INTERNAL_NODE_MAX_KEYS / 2

/-! ## Row and serialization (main.cpp lines 526-537)

A Row holds the id and the two string fields as their byte content (the
bytes strictly before the terminating null of the C string).  serialize_row
writes the 4 id bytes little-endian (memcpy of a uint32), then strncpy of
each string into its fixed slot: the content bytes followed by zero padding
up to the slot width.  deserialize_row reads them back, truncating at the
first zero byte (strncpy into the destination plus a forced terminator). -/

structure Row where
  id : Nat
  username : List Nat
  email : List Nat
deriving DecidableEq, Repr

def u32_le (n : Nat) : List Nat :=
  [n % 256, n / 256 % 256, n / 65536 % 256, n / 16777216 % 256]

def u32_of_le (bs : List Nat) : Nat :=
  bs.getD 0 0 + 256 * bs.getD 1 0 + 65536 * bs.getD 2 0 + 16777216 * bs.getD 3 0

/-- strncpy(dst, src, n) where src is a C string whose content bytes are
`src` (no interior zero byte): copies min(|src|, n) content bytes and pads
the rest of the n-byte slot with zero bytes. -/
def strncpy_slot (src : List Nat) (n : Nat) : List Nat :=
  src.take n ++ List.replicate (n - src.length) 0

def serialize_row (r : Row) : List Nat :=
  u32_le r.id ++ strncpy_slot r.username USERNAME_SIZE ++ strncpy_slot r.email EMAIL_SIZE

def deserialize_row (bs : List Nat) : Row :=
  { id := u32_of_le bs
    username := ((bs.drop ID_SIZE).take USERNAME_SIZE).takeWhile (fun b => b ≠ 0)
    email := ((bs.drop (ID_SIZE + USERNAME_SIZE)).take EMAIL_SIZE).takeWhile (fun b => b ≠ 0) }

/-! ## Pages and database state -/

/-- One page of the file, in its role.  `zeroed` is a page whose buffer is
all zero bytes (fresh allocation); `free` is a page on the free chain, whose
first four bytes hold the next free page number. -/
inductive Page where
  | leaf (isRoot : Bool) (parent : Nat) (cells : List (Nat × Row)) (nextLeaf : Nat)
  | internal (isRoot : Bool) (parent : Nat) (cells : List (Nat × Nat)) (rightChild : Nat)
  | free (next : Nat)
  | zeroed
deriving DecidableEq, Repr

def dummyRow : Row := ⟨0, [], []⟩

def dummyCell : Nat × Row := (0, dummyRow)

/-- Value of the first four bytes of a page buffer, little-endian (used by
the free chain).  For a node page these are node_type, is_root and the low
half of the parent pointer. -/
def Page.firstU32 : Page → Nat
  | .free n => n
  | .zeroed => 0
  | .leaf r par _ _ => 1 + (if r then 256 else 0) + 65536 * (par % 65536)
  | .internal r par _ _ => 0 + (if r then 256 else 0) + 65536 * (par % 65536)

def Page.parentField : Page → Nat
  | .leaf _ par _ _ => par
  | .internal _ par _ _ => par
  | _ => 0

def Page.isRootFlag : Page → Bool
  | .leaf r _ _ _ => r
  | .internal r _ _ _ => r
  | _ => false

/-- Write of the parent pointer field (bytes 2..5 of the common header). -/
def Page.setParentField : Page → Nat → Page
  | .leaf r _ cs nx, par => .leaf r par cs nx
  | .internal r _ cs rc, par => .internal r par cs rc
  | pg, _ => pg

/-- Write of the is_root flag (byte 1 of the common header). -/
def Page.setRootFlag : Page → Bool → Page
  | .leaf _ par cs nx, r => .leaf r par cs nx
  | .internal _ par cs rc, r => .internal r par cs rc
  | pg, _ => pg

/-- Cells of a leaf page (empty for any other page). -/
def leafCellsOf : Page → List (Nat × Row)
  | .leaf _ _ cells _ => cells
  | _ => []

/-- The merged cache/disk page table, kept as an association list so that
whole states compare decidably; a page number with no entry reads as a
zeroed buffer (the memset of pager_get_page on a miss past the end of
file). -/
def storeGet : List (Nat × Page) → Nat → Page
  | [], _ => .zeroed
  | e :: rest, p => if e.1 = p then e.2 else storeGet rest p

/-- Pointwise update of the page table (replace the entry in place, append
a fresh one). -/
def storeSet : List (Nat × Page) → Nat → Page → List (Nat × Page)
  | [], p, pg => [(p, pg)]
  | e :: rest, p, pg => if e.1 = p then (p, pg) :: rest else e :: storeSet rest p pg

/-- Pager + table state: merged cache/disk page contents, plus the header
fields root_page_num and free_head and the page count.  Cache residency,
dirty flags and LRU order are not modelled: the cache is write-through
transparent (evictions flush, close flushes) and no claim observes it. -/
structure DB where
  pages : List (Nat × Page)
  rootPage : Nat
  freeHead : Nat
  numPages : Nat
deriving DecidableEq, Repr

/-- Contents of page `p`. -/
def DB.store (s : DB) (p : Nat) : Page := storeGet s.pages p

def setPage (s : DB) (p : Nat) (pg : Page) : DB :=
  { s with pages := storeSet s.pages p pg }

/-- pager_get_page (main.cpp 101-153) as a read: out-of-bounds page numbers
fail (nullptr); pages never written read as zeroed buffers (the memset on a
cache miss past the end of file).  The num_pages bump that get_page performs
on first access of a fresh page is modelled at its only observable site,
get_unused_page_num. -/
def pager_get_page (s : DB) (p : Nat) : Option Page :=
  if p < TABLE_MAX_PAGES then some (s.store p) else none

/-- pager_open (main.cpp 68-88), existing-file branch: the header length
check and derived page count.  `none` is the CorruptFile exit. -/
def pager_open_existing (fileLength : Nat) : Option Nat :=
  if fileLength < DB_FILE_HEADER_SIZE ∨ (fileLength - DB_FILE_HEADER_SIZE) % PAGE_SIZE ≠ 0 then
    none
  else
    some ((fileLength - DB_FILE_HEADER_SIZE) / PAGE_SIZE)

/-- get_unused_page_num (main.cpp 220-238). -/
def get_unused_page_num (s : DB) : Nat × DB :=
  if s.freeHead = 0 then
    (s.numPages, { s with numPages := s.numPages + 1 })
  else
    match pager_get_page s s.freeHead with
    | none => (s.numPages, { s with numPages := s.numPages + 1 })
    | some pg =>
      let pageNum := s.freeHead
      let s1 := { s with freeHead := pg.firstU32 }
      (pageNum, setPage s1 pageNum .zeroed)

/-- free_page (main.cpp 240-254).  The immediate pager_flush is a no-op in
the merged view. -/
def free_page (s : DB) (p : Nat) : DB :=
  if p ≥ TABLE_MAX_PAGES then s
  else
    match pager_get_page s p with
    | none => s
    | some _ =>
      let s1 := setPage s p (.free s.freeHead)
      { s1 with freeHead := p }

/-- The state right after new_table on a fresh file (main.cpp 38-67 and
257-301): page 0 initialized as an empty root leaf, header root=0 free=0,
one page. -/
def emptyDB : DB :=
  { pages := [(0, .leaf true 0 [] 0)]
    rootPage := 0
    freeHead := 0
    numPages := 1 }

/-! ## Cursor and search (main.cpp 643-734) -/

structure Cursor where
  page : Nat
  cell : Nat
  endOfTable : Bool
deriving DecidableEq, Repr

/-- Binary-search loop of leaf_node_find (main.cpp 654-669).  Returns the
resulting cell index and whether the loop returned early on an exact key
match (that early return leaves end_of_table false).  Fuel bounds the
iteration count; `mx - mn` shrinks every round, so fuel `keys.length`
suffices at every call site. -/
def leaf_find_loop (keys : List Nat) (key : Nat) : Nat → Nat → Nat → Nat × Bool
  | 0, mn, _ => (mn, false)
  | f + 1, mn, mx =>
    if mn = mx then (mn, false)
    else
      let mid := (mn + mx) / 2
      let k := keys.getD mid 0
      if key = k then (mid, true)
      else if key < k then leaf_find_loop keys key f mn mid
      else leaf_find_loop keys key f (mid + 1) mx

/-- leaf_node_find (main.cpp 643-674) on a given leaf page. -/
def leaf_node_find (s : DB) (pageNum key : Nat) : Option Cursor :=
  match pager_get_page s pageNum with
  | some (.leaf _ _ cells _) =>
    let r := leaf_find_loop (cells.map (·.1)) key cells.length 0 cells.length
    some ⟨pageNum, r.1, if r.2 then false else r.1 = cells.length⟩
  | _ => none

/-- Binary-search loop of table_find on an internal node (main.cpp 688-696):
least index whose separator key is ≥ the searched key. -/
def internal_find_loop (keys : List Nat) (key : Nat) : Nat → Nat → Nat → Nat
  | 0, mn, _ => mn
  | f + 1, mn, mx =>
    if mn = mx then mn
    else
      let mid := (mn + mx) / 2
      if key ≤ keys.getD mid 0 then internal_find_loop keys key f mn mid
      else internal_find_loop keys key f (mid + 1) mx

/-- Descent loop of table_find (main.cpp 676-715) from a start page.  Fuel
bounds the descent depth.  A free or zeroed page would be reinterpreted
byte-wise by the C code; no modelled state searches into one, and the
embedding fails (as for a nullptr page). -/
def table_find_from (s : DB) (key : Nat) : Nat → Nat → Option Cursor
  | 0, _ => none
  | f + 1, pageNum =>
    match pager_get_page s pageNum with
    | some (.internal _ _ cells rc) =>
      let n := cells.length
      let idx := internal_find_loop (cells.map (·.2)) key n 0 n
      if idx = n then table_find_from s key f rc
      else table_find_from s key f (cells.getD idx (0, 0)).1
    | some (.leaf _ _ _ _) => leaf_node_find s pageNum key
    | _ => none

def table_find (s : DB) (fuel key : Nat) : Option Cursor :=
  table_find_from s key fuel s.rootPage

/-- find_key_location (main.cpp 1634-1653): cursor plus the key_found flag. -/
def find_key_location (s : DB) (fuel key : Nat) : Option (Cursor × Bool) :=
  match table_find s fuel key with
  | none => none
  | some cur =>
    match pager_get_page s cur.page with
    | some (.leaf _ _ cells _) =>
      some (cur, cur.cell < cells.length && (cells.getD cur.cell dummyCell).1 == key)
    | some _ => some (cur, false)
    | none => none

/-- get_node_max_key (main.cpp 590-617).  Fuel bounds the right-spine
descent. -/
def get_node_max_key (s : DB) : Nat → Page → Nat
  | _, .leaf _ _ cells _ => ((cells.getLast?).map (·.1)).getD 0
  | 0, .internal _ _ _ _ => 0
  | f + 1, .internal _ _ _ rc =>
    if rc ≥ TABLE_MAX_PAGES then 0
    else
      match pager_get_page s rc with
      | none => 0
      | some pg => get_node_max_key s f pg
  | _, .free _ => 0
  | _, .zeroed => 0

/-! ## List helpers mirroring the in-page byte moves -/

/-- Shift cells `[i..]` right by one and write the new cell at slot `i`
(the memmove + write pattern of leaf_node_insert and of the internal-node
cell shift; call sites guarantee `i ≤ length`). -/
def insertAt (l : List α) (i : Nat) (a : α) : List α :=
  l.take i ++ a :: l.drop i

/-- Shift cells `[i+1..]` left by one and drop the count by one (the loop of
leaf_node_delete).  When `i` is at or past the end the loop does nothing and
the decremented count drops the last live cell. -/
def eraseAt (l : List α) (i : Nat) : List α :=
  if i < l.length then l.take i ++ l.drop (i + 1) else l.dropLast

/-- Overwrite the key half of internal cell `i` (a bounded
`*get_internal_node_key(node, i) = k` write). -/
def setKeyAt (cells : List (Nat × Nat)) (i k : Nat) : List (Nat × Nat) :=
  cells.set i ((cells.getD i (0, 0)).1, k)

/-- Overwrite the child half of internal cell `i`. -/
def setChildAt (cells : List (Nat × Nat)) (i c : Nat) : List (Nat × Nat) :=
  cells.set i (c, (cells.getD i (0, 0)).2)

/-- Update-the-separator loop of leaf_node_split_and_insert (main.cpp
1013-1019) and internal_node_split_and_insert (960-966): the first cell
whose child pointer equals `cp` gets key `nk`. -/
def set_key_of_child : List (Nat × Nat) → Nat → Nat → List (Nat × Nat)
  | [], _, _ => []
  | (c, k) :: rest, cp, nk =>
    if c = cp then (c, nk) :: rest else (c, k) :: set_key_of_child rest cp nk

/-- Internal cells viewed as the page byte area does: alternating 4-byte
child and key words. -/
def cellsToWords : List (Nat × Nat) → List Nat
  | [] => []
  | (c, k) :: rest => c :: k :: cellsToWords rest

def wordsToCells : List Nat → List (Nat × Nat)
  | c :: k :: rest => (c, k) :: wordsToCells rest
  | _ => []

/-- memmove of `cnt` 4-byte words from word offset `src` to word offset
`dst` inside the cell area (snapshot semantics, as memmove).  Writes landing
outside the live area are dropped, reads outside it give 0; several
underflow paths in the source move per-word byte counts over the 8-byte
cell array, and this models those moves exactly on the live words. -/
def memmoveWords (ws : List Nat) (dst src cnt : Nat) : List Nat :=
  (List.range ws.length).map fun j =>
    if dst ≤ j ∧ j < dst + cnt then ws.getD (src + (j - dst)) 0 else ws.getD j 0

/-- The remove-parent-entry shift of handle_leaf_underflow (main.cpp
1224-1233 and 1299-1308): two memmoves of `m` words each, one over the
child offsets and one over the key offsets, starting at cell `ci`. -/
def wordShiftPairs (cells : List (Nat × Nat)) (ci m : Nat) : List (Nat × Nat) :=
  let ws := cellsToWords cells
  let ws1 := memmoveWords ws (2 * ci) (2 * ci + 2) m
  let ws2 := memmoveWords ws1 (2 * ci + 1) (2 * ci + 3) m
  wordsToCells ws2

/-- Reparent each page of the list (the parent-pointer loops of the split
routines).  A page number the pager rejects is skipped; the source would
dereference the nullptr there. -/
def reparentAll (s : DB) (pages : List Nat) (newParent : Nat) : DB :=
  pages.foldl
    (fun st p =>
      if p < TABLE_MAX_PAGES then setPage st p ((st.store p).setParentField newParent) else st)
    s

/-! ## Insertion (main.cpp 736-1034) -/

/-- leaf_node_insert (main.cpp 736-753). -/
def leaf_node_insert (s : DB) (cur : Cursor) (key : Nat) (value : Row) : DB :=
  match pager_get_page s cur.page with
  | some (.leaf r par cells nx) =>
    setPage s cur.page (.leaf r par (insertAt cells cur.cell (key, value)) nx)
  | _ => s

/-- create_new_root (main.cpp 755-787).  The new root page is fresh or a
zeroed freelist page, so its parent field reads 0. -/
def create_new_root (s : DB) (fuel : Nat) (rightChildPageNum : Nat) : DB :=
  match pager_get_page s s.rootPage with
  | none => s
  | some _ =>
    let leftChildPageNum := s.rootPage
    match pager_get_page s rightChildPageNum with
    | none => s
    | some _ =>
      let a := get_unused_page_num s
      let newRootPageNum := a.1
      let s1 := a.2
      if newRootPageNum ≥ TABLE_MAX_PAGES then s1
      else
        let rootMax := get_node_max_key s1 fuel (s1.store leftChildPageNum)
        let s2 := setPage s1 newRootPageNum
          (.internal true 0 [(leftChildPageNum, rootMax)] rightChildPageNum)
        let s3 := setPage s2 leftChildPageNum
          ((s2.store leftChildPageNum).setParentField newRootPageNum)
        let s4 := setPage s3 rightChildPageNum
          ((s3.store rightChildPageNum).setParentField newRootPageNum)
        let s5 := { s4 with rootPage := newRootPageNum }
        let s6 := setPage s5 leftChildPageNum ((s5.store leftChildPageNum).setRootFlag false)
        setPage s6 rightChildPageNum ((s6.store rightChildPageNum).setRootFlag false)

/-- Binary-search loop of internal_node_insert (main.cpp 804-816): least
index whose separator key is strictly greater than the inserted child max. -/
def internal_insert_find_loop (keys : List Nat) (key : Nat) : Nat → Nat → Nat → Nat
  | 0, mn, _ => mn
  | f + 1, mn, mx =>
    if mn = mx then mn
    else
      let mid := (mn + mx) / 2
      if key < keys.getD mid 0 then internal_insert_find_loop keys key f mn mid
      else internal_insert_find_loop keys key f (mid + 1) mx

mutual

/-- internal_node_insert (main.cpp 791-848).  Fuel feeds both the max-key
walks and the mutual recursion with the split routine. -/
def internal_node_insert : Nat → DB → Nat → Nat → DB
  | 0, s, _, _ => s
  | f + 1, s, parentPageNum, childPageNum =>
    match pager_get_page s parentPageNum with
    | some (.internal pr pp pcells prc) =>
      match pager_get_page s childPageNum with
      | none => s
      | some child =>
        let childMax := get_node_max_key s f child
        let n := pcells.length
        let idx := internal_insert_find_loop (pcells.map (·.2)) childMax n 0 n
        if n ≥ INTERNAL_NODE_MAX_KEYS then
          internal_node_split_and_insert f s parentPageNum childPageNum
        else
          match pager_get_page s prc with
          | none => s
          | some rcPage =>
            let rcMax := get_node_max_key s f rcPage
            if childMax > rcMax then
              setPage s parentPageNum
                (.internal pr pp (pcells ++ [(prc, rcMax)]) childPageNum)
            else
              setPage s parentPageNum
                (.internal pr pp (insertAt pcells idx (childPageNum, childMax)) prc)
    | _ => s

/-- internal_node_split_and_insert (main.cpp 850-971).  The scratch arrays
are the combined child/key lists with the new entry inserted; reads past
their live prefix return the zero the value-initialized temp arrays hold
(the final phantom cell of the right node, with key slot read one past the
inserted range, comes out exactly as in the source).  A nullptr parent at
the end would be dereferenced by the source; the embedding stops there. -/
def internal_node_split_and_insert : Nat → DB → Nat → Nat → DB
  | 0, s, _, _ => s
  | f + 1, s, parentPageNum, childPageNum =>
    match pager_get_page s parentPageNum with
    | some (.internal oR oP oCells oRC) =>
      let a := get_unused_page_num s
      let newPageNum := a.1
      let s1 := a.2
      if newPageNum ≥ TABLE_MAX_PAGES then s1
      else
        let s2 := setPage s1 newPageNum (.internal false 0 [] 0)
        let tempKeys := oCells.map (·.2)
        let tempChildren := (oCells.map (·.1)) ++ [oRC]
        match pager_get_page s2 childPageNum with
        | none => s2
        | some child =>
          let childMax := get_node_max_key s2 f child
          let insertIndex := (tempKeys.findIdx? (fun k => childMax < k)).getD oCells.length
          let keys2 := insertAt tempKeys insertIndex childMax
          let children2 := insertAt tempChildren (insertIndex + 1) childPageNum
          let splitAt := (oCells.length + 1) / 2
          let leftCells := (children2.take splitAt).zip (keys2.take splitAt)
          let leftRC := children2.getD splitAt 0
          let s3 := setPage s2 parentPageNum (.internal oR oP leftCells leftRC)
          let newNumKeys := oCells.length + 1 - splitAt
          let rightCells := (List.range newNumKeys).map fun i =>
            (children2.getD (splitAt + 1 + i) 0, keys2.getD (splitAt + 1 + i) 0)
          let newRC := children2.getD (oCells.length + 1) 0
          let s4 := setPage s3 newPageNum (.internal false 0 rightCells newRC)
          let s5 := reparentAll s4 ((leftCells.map (·.1)) ++ [leftRC]) parentPageNum
          let s6 := reparentAll s5 ((rightCells.map (·.1)) ++ [newRC]) newPageNum
          let s7 := setPage s6 newPageNum
            ((s6.store newPageNum).setParentField (s6.store parentPageNum).parentField)
          if (s7.store parentPageNum).isRootFlag then
            create_new_root s7 f newPageNum
          else
            let pparent := (s7.store parentPageNum).parentField
            let newMax := get_node_max_key s7 f (s7.store parentPageNum)
            match pager_get_page s7 pparent with
            | some (.internal gr gp gcells grc) =>
              let s8 := setPage s7 pparent
                (.internal gr gp (set_key_of_child gcells parentPageNum newMax) grc)
              internal_node_insert f s8 pparent newPageNum
            | _ => s7
    | _ => s

end

/-- The sibling-chain splice and cell move of leaf_node_split_and_insert
(main.cpp 986-1003), written as the successive buffer states. -/
def split_leaf_pages (s : DB) (oldPage newPage : Nat) (oldRoot : Bool) (oldPar : Nat)
    (oldCells : List (Nat × Row)) (oldNext : Nat) : DB :=
  let s2 := setPage s newPage (.leaf false 0 [] oldNext)
  let s3 := setPage s2 oldPage (.leaf oldRoot oldPar oldCells newPage)
  let splitAt := (oldCells.length + 1) / 2
  let s4 := setPage s3 newPage (.leaf false 0 (oldCells.drop splitAt) oldNext)
  let s5 := setPage s4 oldPage (.leaf oldRoot oldPar (oldCells.take splitAt) newPage)
  setPage s5 newPage (.leaf false oldPar (oldCells.drop splitAt) oldNext)

/-- The update-parent-separator-then-insert block shared by the two split
routines (main.cpp 1008-1022 and 955-969): the parent separator for the
split node becomes its new max, then the new right node is inserted into
the parent.  A nullptr or non-internal parent would be dereferenced
byte-wise by the source; unreachable from the executor. -/
def split_update_parent (s : DB) (fuel parentPageNum oldPage newPage : Nat) : DB :=
  let newMax := get_node_max_key s fuel (s.store oldPage)
  match pager_get_page s parentPageNum with
  | some (.internal pr pp pcells prc) =>
    internal_node_insert fuel
      (setPage s parentPageNum
        (.internal pr pp (set_key_of_child pcells oldPage newMax) prc))
      parentPageNum newPage
  | _ => s

/-- The final insert into the proper half after a leaf split (main.cpp
1025-1033). -/
def split_insert_half (s : DB) (splitAt oldPage newPage key : Nat) (value : Row) : DB :=
  match pager_get_page s oldPage with
  | some (.leaf _ _ cellsNow _) =>
    if key ≤ (cellsNow.getD (splitAt - 1) dummyCell).1 then
      match leaf_node_find s oldPage key with
      | some c => leaf_node_insert s c key value
      | none => s
    else
      match leaf_node_find s newPage key with
      | some c => leaf_node_insert s c key value
      | none => s
  | _ => s

/-- leaf_node_split_and_insert (main.cpp 973-1034).  The old node is re-read
after the allocation, matching the C buffer contents at each access. -/
def leaf_node_split_and_insert (s : DB) (fuel : Nat) (cur : Cursor) (key : Nat)
    (value : Row) : DB :=
  match pager_get_page s cur.page with
  | some (.leaf _ _ _ _) =>
    let a := get_unused_page_num s
    let newPageNum := a.1
    let s1 := a.2
    if newPageNum ≥ TABLE_MAX_PAGES then s1
    else
      match pager_get_page s1 cur.page with
      | some (.leaf oldRoot oldPar oldCells oldNext) =>
        let splitAt := (oldCells.length + 1) / 2
        let s6 := split_leaf_pages s1 cur.page newPageNum oldRoot oldPar oldCells oldNext
        let s7 :=
          if oldRoot then create_new_root s6 fuel newPageNum
          else split_update_parent s6 fuel oldPar cur.page newPageNum
        split_insert_half s7 splitAt cur.page newPageNum key value
      | _ => s1
  | _ => s

/-! ## Deletion (main.cpp 1036-1617) -/

/-- find_child_index_in_parent (main.cpp 1058-1076): the right child first,
then a linear scan of the cells; `none` is the -1 not-found result. -/
def find_child_index_in_parent (pcells : List (Nat × Nat)) (prc childPageNum : Nat) :
    Option Nat :=
  if prc = childPageNum then some pcells.length
  else pcells.findIdx? (fun c => c.1 == childPageNum)

/-- The re-derive loop after a merge removed a parent entry (main.cpp
1246-1253 and 1321-1328): every key from `start` on is recomputed as the max
key of its child subtree.  A child the pager rejects is skipped (the
source's nullptr guard). -/
def rederive_parent_keys (s : DB) (fuel parentPageNum start : Nat) : DB :=
  match pager_get_page s parentPageNum with
  | some (.internal pr pp pcells prc) =>
    let pcells2 := ((List.range pcells.length).drop start).foldl
      (fun cs i =>
        let childPage := (cs.getD i (0, 0)).1
        if childPage < TABLE_MAX_PAGES then
          setKeyAt cs i (get_node_max_key s fuel (s.store childPage))
        else cs)
      pcells
    setPage s parentPageNum (.internal pr pp pcells2 prc)
  | _ => s

/-- handle_internal_underflow (main.cpp 1351-1617).

Only the borrow-from-left path can complete in the source: borrowing from
the right sibling (line 1407) and both merge paths (lines 1497, 1508, 1562,
1572) write through get_internal_node_child at an index strictly greater
than the num_keys field of the written node, where that accessor returns
nullptr and the source dereferences it, aborting the process.  Those paths
are modelled as state-preserving stops.  In the borrow-from-left word
moves, the one dead cell slot past the live count is modelled as zero
words. -/
def handle_internal_underflow : Nat → DB → Nat → DB
  | 0, s, _ => s
  | f + 1, s, pageNum =>
    match pager_get_page s pageNum with
    | some (.internal inr inpar incells inrc) =>
      if inr then s
      else
        let parentPageNum := Page.parentField (.internal inr inpar incells inrc)
        match pager_get_page s parentPageNum with
        | some (.internal pr pp pcells prc) =>
          match find_child_index_in_parent pcells prc pageNum with
          | none => s
          | some childIndex =>
            let numParentKeys := pcells.length
            let nk := incells.length
            let rightAttempt : Option DB :=
              if childIndex < numParentKeys then
                let rsib := if childIndex = numParentKeys - 1 then prc
                            else (pcells.getD (childIndex + 1) (0, 0)).1
                match pager_get_page s rsib with
                | some (.internal _ _ rcells _) =>
                  if rcells.length > INTERNAL_NODE_MIN_KEYS then some s else none
                | _ => none
              else none
            match rightAttempt with
            | some st => st
            | none =>
              let leftAttempt : Option DB :=
                if childIndex > 0 then
                  let lsib := (pcells.getD (childIndex - 1) (0, 0)).1
                  match pager_get_page s lsib with
                  | some (.internal lr lpar lcells lrc) =>
                    if lcells.length > INTERNAL_NODE_MIN_KEYS then
                      let ws := cellsToWords incells ++ [0, 0]
                      let ws1 := if nk > 0 then memmoveWords ws 2 0 (nk + 1) else ws
                      let ws2 := if nk > 0 then memmoveWords ws1 3 1 nk else ws1
                      let borrowedChild := lrc
                      let borrowedKey := get_node_max_key s f (.internal lr lpar lcells lrc)
                      let newCells := wordsToCells ((ws2.set 0 borrowedChild).set 1 borrowedKey)
                      let s1 := setPage s pageNum (.internal inr inpar newCells inrc)
                      let s2 :=
                        if borrowedChild < TABLE_MAX_PAGES then
                          setPage s1 borrowedChild
                            ((s1.store borrowedChild).setParentField pageNum)
                        else s1
                      let s3 := setPage s2 lsib
                        (.internal lr lpar (lcells.take (lcells.length - 1))
                          (lcells.getD (lcells.length - 1) (0, 0)).1)
                      let newLeftMax := get_node_max_key s3 f (s3.store lsib)
                      some (setPage s3 parentPageNum
                        (.internal pr pp (setKeyAt pcells (childIndex - 1) newLeftMax) prc))
                    else none
                  | _ => none
                else none
              match leftAttempt with
              | some st => st
              | none => s
        | _ => s
    | _ => s

/-- The borrow-from-right-sibling block of handle_leaf_underflow (main.cpp
1129-1152): move the sibling's first cell to the end of the node, shift the
sibling left, and set the parent separator at the child index to the
sibling's new first key. -/
def borrow_leaf_right (s : DB) (pageNum rsib parentPageNum : Nat) (nr : Bool) (npar : Nat)
    (ncells : List (Nat × Row)) (nnx : Nat) (pr : Bool) (pp : Nat)
    (pcells : List (Nat × Nat)) (prc : Nat) (childIndex : Nat) (rr : Bool) (rpar : Nat)
    (rcells : List (Nat × Row)) (rnx : Nat) : DB :=
  let s1 := setPage s pageNum (.leaf nr npar (ncells ++ [rcells.getD 0 dummyCell]) nnx)
  let s2 := setPage s1 rsib (.leaf rr rpar rcells.tail rnx)
  setPage s2 parentPageNum
    (.internal pr pp (setKeyAt pcells childIndex (rcells.tail.getD 0 dummyCell).1) prc)

/-- The borrow-from-left-sibling block of handle_leaf_underflow (main.cpp
1165-1189): shift the node right, move the left sibling's last cell to the
front, and set the separator left of the child index to the left sibling's
new max. -/
def borrow_leaf_left (s : DB) (f pageNum lsib parentPageNum : Nat) (nr : Bool) (npar : Nat)
    (ncells : List (Nat × Row)) (nnx : Nat) (pr : Bool) (pp : Nat)
    (pcells : List (Nat × Nat)) (prc : Nat) (childIndex : Nat) (lr : Bool) (lpar : Nat)
    (lcells : List (Nat × Row)) (lnx : Nat) : DB :=
  let s1 := setPage s pageNum
    (.leaf nr npar (lcells.getD (lcells.length - 1) dummyCell :: ncells) nnx)
  let s2 := setPage s1 lsib (.leaf lr lpar lcells.dropLast lnx)
  let newLeftMax := get_node_max_key s2 f (s2.store lsib)
  setPage s2 parentPageNum
    (.internal pr pp (setKeyAt pcells (childIndex - 1) newLeftMax) prc)

/-- The shared tail of both leaf merges (main.cpp 1256-1271 and 1330-1346):
root collapse onto the surviving page when the root parent ran empty, else
free the absorbed page and recurse into internal underflow when the parent
dropped below its minimum. -/
def merge_epilogue (s3 : DB) (f parentPageNum survivor freed : Nat) : DB :=
  match pager_get_page s3 parentPageNum with
  | some (.internal pr3 _ pc3 _) =>
    if pr3 ∧ pc3.length = 0 then
      let s4 := { s3 with rootPage := survivor }
      let s5 := setPage s4 survivor ((s4.store survivor).setRootFlag true)
      let s6 := setPage s5 survivor ((s5.store survivor).setParentField 0)
      free_page s6 freed
    else if ¬pr3 ∧ pc3.length < INTERNAL_NODE_MIN_KEYS then
      handle_internal_underflow f (free_page s3 freed) parentPageNum
    else
      free_page s3 freed
  | _ => s3

/-- Merge the underflowing leaf into its left sibling (main.cpp 1195-1272):
cells are appended to the left sibling, the left separator becomes the new
left max, the parent entry at the child index is removed by the two
word-level memmoves, the count drops, and every key from childIndex−1 on is
re-derived from its child. -/
def merge_leaf_into_left (s : DB) (f pageNum parentPageNum lsib : Nat)
    (ncells : List (Nat × Row)) (nnx : Nat) (pr : Bool) (pp : Nat)
    (pcells : List (Nat × Nat)) (prc : Nat) (childIndex : Nat) : DB :=
  match pager_get_page s lsib with
  | some (.leaf lr lpar lcells _) =>
    let numParentKeys := pcells.length
    let s1 := setPage s lsib (.leaf lr lpar (lcells ++ ncells) nnx)
    let newLeftMax := get_node_max_key s1 f (s1.store lsib)
    let pcells1 := setKeyAt pcells (childIndex - 1) newLeftMax
    let pcells2 :=
      if childIndex < numParentKeys - 1 then
        wordShiftPairs pcells1 childIndex (numParentKeys - childIndex - 1)
      else pcells1
    let pcells3 :=
      if childIndex = numParentKeys - 1 then setChildAt pcells2 (numParentKeys - 1) prc
      else pcells2
    let s2 := setPage s1 parentPageNum
      (.internal pr pp (pcells3.take (numParentKeys - 1)) prc)
    let s3 := rederive_parent_keys s2 f parentPageNum (childIndex - 1)
    merge_epilogue s3 f parentPageNum lsib pageNum
  | _ => s

/-- Merge the right sibling into the underflowing (leftmost) leaf (main.cpp
1274-1347).  With a single-entry parent the source reads the dead cell slot
childIndex+1 for the sibling page number; the getD default models those
stale bytes as zero. -/
def merge_leaf_into_right (s : DB) (f pageNum parentPageNum rsib : Nat) (nr : Bool)
    (npar : Nat) (ncells : List (Nat × Row)) (pr : Bool) (pp : Nat)
    (pcells : List (Nat × Nat)) (prc : Nat) (childIndex : Nat) : DB :=
  match pager_get_page s rsib with
  | some (.leaf _ _ rcells rnx) =>
    let numParentKeys := pcells.length
    let s1 := setPage s pageNum (.leaf nr npar (ncells ++ rcells) rnx)
    let newMax := get_node_max_key s1 f (s1.store pageNum)
    let pcells1 := setKeyAt pcells childIndex newMax
    let pcells2 :=
      if childIndex + 1 < numParentKeys - 1 then
        wordShiftPairs pcells1 (childIndex + 1) (numParentKeys - childIndex - 2)
      else pcells1
    let pcells3 := setChildAt pcells2 (numParentKeys - 1) prc
    let s2 := setPage s1 parentPageNum
      (.internal pr pp (pcells3.take (numParentKeys - 1)) prc)
    let s3 := rederive_parent_keys s2 f parentPageNum childIndex
    merge_epilogue s3 f parentPageNum pageNum rsib
  | _ => s

/-- handle_leaf_underflow (main.cpp 1079-1348). -/
def handle_leaf_underflow : Nat → DB → Nat → DB
  | 0, s, _ => s
  | f + 1, s, pageNum =>
    match pager_get_page s pageNum with
    | some (.leaf nr npar ncells nnx) =>
      if nr then s
      else
        let parentPageNum := npar
        match pager_get_page s parentPageNum with
        | some (.internal pr pp pcells prc) =>
          match find_child_index_in_parent pcells prc pageNum with
          | none => s
          | some childIndex =>
            let numParentKeys := pcells.length
            let rightAttempt : Option DB :=
              if childIndex < numParentKeys then
                let rsib := if childIndex = numParentKeys - 1 then prc
                            else (pcells.getD (childIndex + 1) (0, 0)).1
                match pager_get_page s rsib with
                | some (.leaf rr rpar rcells rnx) =>
                  if rcells.length > LEAF_NODE_MIN_CELLS then
                    some (borrow_leaf_right s pageNum rsib parentPageNum nr npar ncells nnx
                      pr pp pcells prc childIndex rr rpar rcells rnx)
                  else none
                | _ => none
              else none
            match rightAttempt with
            | some st => st
            | none =>
              let leftAttempt : Option DB :=
                if childIndex > 0 then
                  let lsib := (pcells.getD (childIndex - 1) (0, 0)).1
                  match pager_get_page s lsib with
                  | some (.leaf lr lpar lcells lnx) =>
                    if lcells.length > LEAF_NODE_MIN_CELLS then
                      some (borrow_leaf_left s f pageNum lsib parentPageNum nr npar ncells
                        nnx pr pp pcells prc childIndex lr lpar lcells lnx)
                    else none
                  | _ => none
                else none
              match leftAttempt with
              | some st => st
              | none =>
                if childIndex > 0 then
                  merge_leaf_into_left s f pageNum parentPageNum
                    (pcells.getD (childIndex - 1) (0, 0)).1 ncells nnx pr pp pcells prc
                    childIndex
                else
                  merge_leaf_into_right s f pageNum parentPageNum
                    (pcells.getD (childIndex + 1) (0, 0)).1 nr npar ncells pr pp pcells prc
                    childIndex
        | _ => s
    | _ => s

/-- leaf_node_delete (main.cpp 1036-1055).  On an empty leaf the uint32
count would wrap around in the source; the executor only deletes a found
key, so the cell list is never empty here. -/
def leaf_node_delete (s : DB) (fuel : Nat) (cur : Cursor) : DB :=
  match pager_get_page s cur.page with
  | some (.leaf r par cells nx) =>
    let cells2 := eraseAt cells cur.cell
    let s1 := setPage s cur.page (.leaf r par cells2 nx)
    if ¬r ∧ cells2.length < LEAF_NODE_MIN_CELLS then handle_leaf_underflow fuel s1 cur.page
    else s1
  | _ => s

/-! ## Executor (main.cpp 1657-1894) -/

inductive ExecRes where
  | success
  | tableFull
  | duplicateKey
  | recordNotFound
  | diskError
  | pageOutOfBounds
deriving DecidableEq, Repr

/-- execute_insert (main.cpp 1657-1689). -/
def execute_insert (s : DB) (fuel : Nat) (row : Row) : ExecRes × DB :=
  let key := row.id
  match find_key_location s fuel key with
  | none => (.pageOutOfBounds, s)
  | some (cur, found) =>
    if found then (.duplicateKey, s)
    else
      match pager_get_page s cur.page with
      | some (.leaf _ _ cells _) =>
        if cells.length ≥ LEAF_NODE_MAX_CELLS then
          (.success, leaf_node_split_and_insert s fuel cur key row)
        else
          (.success, leaf_node_insert s cur key row)
      | _ => (.pageOutOfBounds, s)

/-- execute_find (main.cpp 1736-1761); the row output replaces print_row. -/
def execute_find (s : DB) (fuel key : Nat) : ExecRes × Option Row :=
  match find_key_location s fuel key with
  | none => (.pageOutOfBounds, none)
  | some (cur, found) =>
    if found then
      match pager_get_page s cur.page with
      | some (.leaf _ _ cells _) => (.success, some (cells.getD cur.cell dummyCell).2)
      | _ => (.pageOutOfBounds, none)
    else (.recordNotFound, none)

/-- execute_delete (main.cpp 1763-1786). -/
def execute_delete (s : DB) (fuel key : Nat) : ExecRes × DB :=
  match find_key_location s fuel key with
  | none => (.pageOutOfBounds, s)
  | some (cur, found) =>
    if found then (.success, leaf_node_delete s fuel cur)
    else (.recordNotFound, s)

/-- execute_update (main.cpp 1788-1812): serialize_row over the value bytes
of the found cell; the 4 key bytes of the cell are untouched. -/
def execute_update (s : DB) (fuel : Nat) (row : Row) : ExecRes × DB :=
  match find_key_location s fuel row.id with
  | none => (.pageOutOfBounds, s)
  | some (cur, found) =>
    if found then
      match pager_get_page s cur.page with
      | some (.leaf r par cells nx) =>
        (.success, setPage s cur.page
          (.leaf r par (cells.set cur.cell ((cells.getD cur.cell dummyCell).1, row)) nx))
      | _ => (.pageOutOfBounds, s)
    else (.recordNotFound, s)

/-- The leaf-chain walk of execute_select (main.cpp 1706-1729), collecting
rows from the cursor position on.  Fuel bounds the chain length. -/
def select_loop (s : DB) : Nat → Nat → Nat → List Row → List Row
  | 0, _, _, acc => acc
  | f + 1, pageNum, cellNum, acc =>
    match pager_get_page s pageNum with
    | some (.leaf _ _ cells nl) =>
      let acc1 := acc ++ ((cells.drop cellNum).map (·.2))
      if nl = 0 then acc1 else select_loop s f nl 0 acc1
    | _ => acc

/-- execute_select (main.cpp 1691-1734), via table_start (717-734): position
at table_find(0), end_of_table when that leaf is empty. -/
def execute_select (s : DB) (fuel : Nat) : Option (List Row) :=
  match table_find s fuel 0 with
  | none => none
  | some cur =>
    match pager_get_page s cur.page with
    | some (.leaf _ _ cells _) =>
      if cells.length = 0 then some [] else some (select_loop s fuel cur.page cur.cell [])
    | _ => none

/-- The per-cell loop of execute_range (main.cpp 1845-1862): stops the whole
scan once a key exceeds the range end, collects keys inside the range. -/
def range_cells (startKey endKey : Nat) : List (Nat × Row) → List Row → List Row × Bool
  | [], acc => (acc, false)
  | (k, r) :: rest, acc =>
    if k > endKey then (acc, true)
    else if startKey ≤ k then range_cells startKey endKey rest (acc ++ [r])
    else range_cells startKey endKey rest acc

/-- The leaf-chain walk of execute_range (main.cpp 1837-1871). -/
def range_loop (s : DB) (startKey endKey : Nat) : Nat → Nat → Nat → List Row → List Row
  | 0, _, _, acc => acc
  | f + 1, pageNum, cellNum, acc =>
    match pager_get_page s pageNum with
    | some (.leaf _ _ cells nl) =>
      let r := range_cells startKey endKey (cells.drop cellNum) acc
      if r.2 then r.1
      else if nl = 0 then r.1
      else range_loop s startKey endKey f nl 0 r.1
    | _ => acc

/-- execute_range (main.cpp 1814-1876).  An inverted range prints an error
and reports success with no rows; the initial end_of_table flag of the
table_find cursor ends the scan before it starts. -/
def execute_range (s : DB) (fuel startKey endKey : Nat) : Option (List Row) :=
  if startKey > endKey then some []
  else
    match table_find s fuel startKey with
    | none => none
    | some cur =>
      if cur.endOfTable then some []
      else some (range_loop s startKey endKey fuel cur.page cur.cell [])

/-! ## Validator (main.cpp 1897-2024) -/

/-- The sorted-keys loop of validate_tree_node (main.cpp 1925-1932). -/
def strictSorted : List Nat → Bool
  | [] => true
  | [_] => true
  | a :: b :: t => a < b && strictSorted (b :: t)

/-- validate_tree_node (main.cpp 1897-2005): `none` is a validation failure,
`some (minKey, maxKey, depth)` the out-parameters of a success.  For an
empty leaf the source leaves min/max uninitialized and no caller consumes
them (a non-root empty leaf fails the occupancy check first); the embedding
returns 0.  For an internal node the source sets both reported min and max
to the max of the last child (line 2000). -/
def validate_tree_node (s : DB) : Nat → Nat → Option (Nat × Nat × Nat)
  | 0, _ => none
  | f + 1, pageNum =>
    match pager_get_page s pageNum with
    | some (.leaf r _ cells _) =>
      let n := cells.length
      if n > LEAF_NODE_MAX_CELLS then none
      else if ¬r ∧ n < LEAF_NODE_MIN_CELLS then none
      else if ¬(strictSorted (cells.map (·.1))) then none
      else some ((cells.headD dummyCell).1, (cells.getLastD dummyCell).1, 0)
    | some (.internal r _ icells rc) =>
      let nk := icells.length
      if nk > INTERNAL_NODE_MAX_KEYS then none
      else if ¬r ∧ nk < INTERNAL_NODE_MIN_KEYS then none
      else
        let children := (icells.map (·.1)) ++ [rc]
        let keys := icells.map (·.2)
        let res := children.foldl
          (fun (acc : Option (Nat × Option Nat × Nat)) c =>
            match acc with
            | none => none
            | some (i, fd, prevMax) =>
              match validate_tree_node s f c with
              | none => none
              | some (cmin, cmax, cdepth) =>
                if !(match fd with | none => true | some d => cdepth == d) then none
                else if i > 0 ∧ cmin ≤ prevMax then none
                else if i < keys.length ∧ keys.getD i 0 < cmax then none
                else some (i + 1, some (fd.getD cdepth), cmax))
          (some (0, none, 0))
        match res with
        | none => none
        | some (_, fd, prevMax) => some (prevMax, prevMax, fd.getD 0 + 1)
    | _ => none

/-- validate_tree (main.cpp 2007-2024). -/
def validate_tree (s : DB) (fuel : Nat) : Bool :=
  (validate_tree_node s fuel s.rootPage).isSome

/-! ## Concrete executions

The boundary scenarios run the executor with a fixed fuel of 20, far above
the depth/chain lengths of the trees involved (at most 3 pages).  Each
intermediate state along the scenario trajectories is spelled out as a
literal, and one lemma per command checks that the executor transforms each
literal into the next; the scenario theorems chain those lemmas. -/

def mkRow (k : Nat) : Row := ⟨k, [], []⟩

def FUEL : Nat := 20

/-- A sequence of insert commands, as issued by the REPL. -/
def insert_run (s : DB) (ks : List Nat) : DB :=
  ks.foldl (fun st k => (execute_insert st FUEL (mkRow k)).2) s

/-- A sequence of delete commands, as issued by the REPL. -/
def delete_run (s : DB) (ks : List Nat) : DB :=
  ks.foldl (fun st k => (execute_delete st FUEL k).2) s

def keysC2 : List Nat := [1, 2, 3, 4, 5, 6, 7, 8, 9, 10, 11, 12, 13, 14]

def keys15 : List Nat := [1, 2, 3, 4, 5, 6, 7, 8, 9, 10, 11, 12, 13, 14, 15]

def keysC6 : List Nat := [8, 9, 10, 11, 12, 13, 14, 1, 2, 3, 4, 5, 6, 7]

def t1 : DB := ⟨[(0, Page.leaf true 0 [(1, mkRow 1)] 0)], 0, 0, 1⟩
def t2 : DB := ⟨[(0, Page.leaf true 0 [(1, mkRow 1), (2, mkRow 2)] 0)], 0, 0, 1⟩
def t3 : DB := ⟨[(0, Page.leaf true 0 [(1, mkRow 1), (2, mkRow 2), (3, mkRow 3)] 0)], 0, 0, 1⟩
def t4 : DB := ⟨[(0, Page.leaf true 0 [(1, mkRow 1), (2, mkRow 2), (3, mkRow 3), (4, mkRow 4)] 0)], 0, 0, 1⟩
def t5 : DB := ⟨[(0, Page.leaf true 0 [(1, mkRow 1), (2, mkRow 2), (3, mkRow 3), (4, mkRow 4), (5, mkRow 5)] 0)], 0, 0, 1⟩
def t6 : DB := ⟨[(0, Page.leaf true 0 [(1, mkRow 1), (2, mkRow 2), (3, mkRow 3), (4, mkRow 4), (5, mkRow 5), (6, mkRow 6)] 0)], 0, 0, 1⟩
def t7 : DB := ⟨[(0, Page.leaf true 0 [(1, mkRow 1), (2, mkRow 2), (3, mkRow 3), (4, mkRow 4), (5, mkRow 5), (6, mkRow 6), (7, mkRow 7)] 0)], 0, 0, 1⟩
def t8 : DB := ⟨[(0, Page.leaf true 0 [(1, mkRow 1), (2, mkRow 2), (3, mkRow 3), (4, mkRow 4), (5, mkRow 5), (6, mkRow 6), (7, mkRow 7), (8, mkRow 8)] 0)], 0, 0, 1⟩
def t9 : DB := ⟨[(0, Page.leaf true 0 [(1, mkRow 1), (2, mkRow 2), (3, mkRow 3), (4, mkRow 4), (5, mkRow 5), (6, mkRow 6), (7, mkRow 7), (8, mkRow 8), (9, mkRow 9)] 0)], 0, 0, 1⟩
def t10 : DB := ⟨[(0, Page.leaf true 0 [(1, mkRow 1), (2, mkRow 2), (3, mkRow 3), (4, mkRow 4), (5, mkRow 5), (6, mkRow 6), (7, mkRow 7), (8, mkRow 8), (9, mkRow 9), (10, mkRow 10)] 0)], 0, 0, 1⟩
def t11 : DB := ⟨[(0, Page.leaf true 0 [(1, mkRow 1), (2, mkRow 2), (3, mkRow 3), (4, mkRow 4), (5, mkRow 5), (6, mkRow 6), (7, mkRow 7), (8, mkRow 8), (9, mkRow 9), (10, mkRow 10), (11, mkRow 11)] 0)], 0, 0, 1⟩
def t12 : DB := ⟨[(0, Page.leaf true 0 [(1, mkRow 1), (2, mkRow 2), (3, mkRow 3), (4, mkRow 4), (5, mkRow 5), (6, mkRow 6), (7, mkRow 7), (8, mkRow 8), (9, mkRow 9), (10, mkRow 10), (11, mkRow 11), (12, mkRow 12)] 0)], 0, 0, 1⟩
def t13 : DB := ⟨[(0, Page.leaf true 0 [(1, mkRow 1), (2, mkRow 2), (3, mkRow 3), (4, mkRow 4), (5, mkRow 5), (6, mkRow 6), (7, mkRow 7), (8, mkRow 8), (9, mkRow 9), (10, mkRow 10), (11, mkRow 11), (12, mkRow 12), (13, mkRow 13)] 0)], 0, 0, 1⟩
def t14 : DB := ⟨[(0, Page.leaf false 2 [(1, mkRow 1), (2, mkRow 2), (3, mkRow 3), (4, mkRow 4), (5, mkRow 5), (6, mkRow 6), (7, mkRow 7)] 1), (1, Page.leaf false 2 [(8, mkRow 8), (9, mkRow 9), (10, mkRow 10), (11, mkRow 11), (12, mkRow 12), (13, mkRow 13), (14, mkRow 14)] 0), (2, Page.internal true 0 [(0, 7)] 1)], 2, 0, 3⟩
def u15 : DB := ⟨[(0, Page.leaf false 2 [(1, mkRow 1), (2, mkRow 2), (3, mkRow 3), (4, mkRow 4), (5, mkRow 5), (6, mkRow 6), (7, mkRow 7)] 1), (1, Page.leaf false 2 [(8, mkRow 8), (9, mkRow 9), (10, mkRow 10), (11, mkRow 11), (12, mkRow 12), (13, mkRow 13), (14, mkRow 14), (15, mkRow 15)] 0), (2, Page.internal true 0 [(0, 7)] 1)], 2, 0, 3⟩
def u16 : DB := ⟨[(0, Page.leaf false 2 [(2, mkRow 2), (3, mkRow 3), (4, mkRow 4), (5, mkRow 5), (6, mkRow 6), (7, mkRow 7)] 1), (1, Page.leaf false 2 [(8, mkRow 8), (9, mkRow 9), (10, mkRow 10), (11, mkRow 11), (12, mkRow 12), (13, mkRow 13), (14, mkRow 14), (15, mkRow 15)] 0), (2, Page.internal true 0 [(0, 7)] 1)], 2, 0, 3⟩
def u17 : DB := ⟨[(0, Page.leaf false 2 [(3, mkRow 3), (4, mkRow 4), (5, mkRow 5), (6, mkRow 6), (7, mkRow 7), (8, mkRow 8)] 1), (1, Page.leaf false 2 [(9, mkRow 9), (10, mkRow 10), (11, mkRow 11), (12, mkRow 12), (13, mkRow 13), (14, mkRow 14), (15, mkRow 15)] 0), (2, Page.internal true 0 [(0, 9)] 1)], 2, 0, 3⟩
def v1 : DB := ⟨[(0, Page.leaf false 2 [(1, mkRow 1), (2, mkRow 2), (3, mkRow 3), (4, mkRow 4), (5, mkRow 5), (6, mkRow 6), (7, mkRow 7)] 1), (1, Page.leaf false 2 [(9, mkRow 9), (10, mkRow 10), (11, mkRow 11), (12, mkRow 12), (13, mkRow 13), (14, mkRow 14)] 0), (2, Page.internal true 0 [(0, 7)] 1)], 2, 0, 3⟩
def v2 : DB := ⟨[(0, Page.leaf false 2 [(1, mkRow 1), (2, mkRow 2), (3, mkRow 3), (4, mkRow 4), (5, mkRow 5), (6, mkRow 6)] 1), (1, Page.leaf false 2 [(7, mkRow 7), (10, mkRow 10), (11, mkRow 11), (12, mkRow 12), (13, mkRow 13), (14, mkRow 14)] 0), (2, Page.internal true 0 [(0, 6)] 1)], 2, 0, 3⟩
def v3 : DB := ⟨[(0, Page.leaf true 0 [(1, mkRow 1), (2, mkRow 2), (3, mkRow 3), (4, mkRow 4), (5, mkRow 5), (6, mkRow 6), (7, mkRow 7), (11, mkRow 11), (12, mkRow 12), (13, mkRow 13), (14, mkRow 14)] 0), (1, Page.free 0), (2, Page.internal true 0 [] 1)], 0, 1, 3⟩
def v4 : DB := ⟨[(0, Page.leaf true 0 [(1, mkRow 1), (2, mkRow 2), (3, mkRow 3), (4, mkRow 4), (5, mkRow 5), (6, mkRow 6), (7, mkRow 7), (12, mkRow 12), (13, mkRow 13), (14, mkRow 14)] 0), (1, Page.free 0), (2, Page.internal true 0 [] 1)], 0, 1, 3⟩
def v5 : DB := ⟨[(0, Page.leaf true 0 [(1, mkRow 1), (2, mkRow 2), (3, mkRow 3), (4, mkRow 4), (5, mkRow 5), (6, mkRow 6), (7, mkRow 7), (13, mkRow 13), (14, mkRow 14)] 0), (1, Page.free 0), (2, Page.internal true 0 [] 1)], 0, 1, 3⟩
def v6 : DB := ⟨[(0, Page.leaf true 0 [(1, mkRow 1), (2, mkRow 2), (3, mkRow 3), (4, mkRow 4), (5, mkRow 5), (6, mkRow 6), (7, mkRow 7), (14, mkRow 14)] 0), (1, Page.free 0), (2, Page.internal true 0 [] 1)], 0, 1, 3⟩
def v7 : DB := ⟨[(0, Page.leaf true 0 [(1, mkRow 1), (2, mkRow 2), (3, mkRow 3), (4, mkRow 4), (5, mkRow 5), (6, mkRow 6), (7, mkRow 7)] 0), (1, Page.free 0), (2, Page.internal true 0 [] 1)], 0, 1, 3⟩
def v8 : DB := ⟨[(0, Page.leaf true 0 [(2, mkRow 2), (3, mkRow 3), (4, mkRow 4), (5, mkRow 5), (6, mkRow 6), (7, mkRow 7)] 0), (1, Page.free 0), (2, Page.internal true 0 [] 1)], 0, 1, 3⟩
def v9 : DB := ⟨[(0, Page.leaf true 0 [(3, mkRow 3), (4, mkRow 4), (5, mkRow 5), (6, mkRow 6), (7, mkRow 7)] 0), (1, Page.free 0), (2, Page.internal true 0 [] 1)], 0, 1, 3⟩
def v10 : DB := ⟨[(0, Page.leaf true 0 [(4, mkRow 4), (5, mkRow 5), (6, mkRow 6), (7, mkRow 7)] 0), (1, Page.free 0), (2, Page.internal true 0 [] 1)], 0, 1, 3⟩
def v11 : DB := ⟨[(0, Page.leaf true 0 [(5, mkRow 5), (6, mkRow 6), (7, mkRow 7)] 0), (1, Page.free 0), (2, Page.internal true 0 [] 1)], 0, 1, 3⟩
def v12 : DB := ⟨[(0, Page.leaf true 0 [(6, mkRow 6), (7, mkRow 7)] 0), (1, Page.free 0), (2, Page.internal true 0 [] 1)], 0, 1, 3⟩
def v13 : DB := ⟨[(0, Page.leaf true 0 [(7, mkRow 7)] 0), (1, Page.free 0), (2, Page.internal true 0 [] 1)], 0, 1, 3⟩
def v14 : DB := ⟨[(0, Page.leaf true 0 [] 0), (1, Page.free 0), (2, Page.internal true 0 [] 1)], 0, 1, 3⟩

/-! ## The key-equals-id invariant (C10) -/

/-- Every cell of the list ties its 4-byte key to the id of the row stored
in its value. -/
def cellsPred (l : List (Nat × Row)) : Prop := ∀ c ∈ l, c.1 = c.2.id

/-- The key-equals-id property for one page (vacuous off leaves). -/
def pageOk (pg : Page) : Prop := cellsPred (leafCellsOf pg)

/-- The key-equals-id property for every page of the state. -/
def cellsOk (s : DB) : Prop := ∀ p, pageOk (s.store p)

/-- States reachable from the fresh database through the three mutating
commands of the executor, at any fuel. -/
inductive Reach : DB → Prop where
  | start : Reach emptyDB
  | ins (s : DB) (fuel : Nat) (row : Row) : Reach s → Reach (execute_insert s fuel row).2
  | upd (s : DB) (fuel : Nat) (row : Row) : Reach s → Reach (execute_update s fuel row).2
  | del (s : DB) (fuel key : Nat) : Reach s → Reach (execute_delete s fuel key).2

theorem step_t1 : (execute_insert emptyDB FUEL (mkRow 1)).2 = t1 := by decide
theorem step_t2 : (execute_insert t1 FUEL (mkRow 2)).2 = t2 := by decide
theorem step_t3 : (execute_insert t2 FUEL (mkRow 3)).2 = t3 := by decide
theorem step_t4 : (execute_insert t3 FUEL (mkRow 4)).2 = t4 := by decide
theorem step_t5 : (execute_insert t4 FUEL (mkRow 5)).2 = t5 := by decide
theorem step_t6 : (execute_insert t5 FUEL (mkRow 6)).2 = t6 := by decide
theorem step_t7 : (execute_insert t6 FUEL (mkRow 7)).2 = t7 := by decide
theorem step_t8 : (execute_insert t7 FUEL (mkRow 8)).2 = t8 := by decide
theorem step_t9 : (execute_insert t8 FUEL (mkRow 9)).2 = t9 := by decide
theorem step_t10 : (execute_insert t9 FUEL (mkRow 10)).2 = t10 := by decide
theorem step_t11 : (execute_insert t10 FUEL (mkRow 11)).2 = t11 := by decide
theorem step_t12 : (execute_insert t11 FUEL (mkRow 12)).2 = t12 := by decide
theorem step_t13 : (execute_insert t12 FUEL (mkRow 13)).2 = t13 := by decide
theorem step_t14 : (execute_insert t13 FUEL (mkRow 14)).2 = t14 := by decide
theorem step_u15 : (execute_insert t14 FUEL (mkRow 15)).2 = u15 := by decide
theorem step_u16 : (execute_delete u15 FUEL 1).2 = u16 := by decide
theorem step_u17 : (execute_delete u16 FUEL 2).2 = u17 := by decide
theorem step_v1 : (execute_delete t14 FUEL 8).2 = v1 := by decide
theorem step_v2 : (execute_delete v1 FUEL 9).2 = v2 := by decide
theorem step_v3 : (execute_delete v2 FUEL 10).2 = v3 := by decide
theorem step_v4 : (execute_delete v3 FUEL 11).2 = v4 := by decide
theorem step_v5 : (execute_delete v4 FUEL 12).2 = v5 := by decide
theorem step_v6 : (execute_delete v5 FUEL 13).2 = v6 := by decide
theorem step_v7 : (execute_delete v6 FUEL 14).2 = v7 := by decide
theorem step_v8 : (execute_delete v7 FUEL 1).2 = v8 := by decide
theorem step_v9 : (execute_delete v8 FUEL 2).2 = v9 := by decide
theorem step_v10 : (execute_delete v9 FUEL 3).2 = v10 := by decide
theorem step_v11 : (execute_delete v10 FUEL 4).2 = v11 := by decide
theorem step_v12 : (execute_delete v11 FUEL 5).2 = v12 := by decide
theorem step_v13 : (execute_delete v12 FUEL 6).2 = v13 := by decide
theorem step_v14 : (execute_delete v13 FUEL 7).2 = v14 := by decide

theorem run_t14 : insert_run emptyDB keysC2 = t14 := by
  simp only [insert_run, keysC2, List.foldl_cons, List.foldl_nil, step_t1, step_t2, step_t3, step_t4, step_t5, step_t6, step_t7, step_t8, step_t9, step_t10, step_t11, step_t12, step_t13, step_t14]

theorem run_u15 : insert_run emptyDB keys15 = u15 := by
  simp only [insert_run, keys15, List.foldl_cons, List.foldl_nil, step_t1, step_t2, step_t3, step_t4, step_t5, step_t6, step_t7, step_t8, step_t9, step_t10, step_t11, step_t12, step_t13, step_t14, step_u15]

theorem run_u16 : delete_run u15 [1] = u16 := by
  simp only [delete_run, List.foldl_cons, List.foldl_nil, step_u16]

theorem run_v14 : delete_run t14 keysC6 = v14 := by
  simp only [delete_run, keysC6, List.foldl_cons, List.foldl_nil, step_v1, step_v2, step_v3, step_v4, step_v5, step_v6, step_v7, step_v8, step_v9, step_v10, step_v11, step_v12, step_v13, step_v14]

/-! ## Scenario theorems -/

/-- C2: inserting the 14 keys 1..14 in ascending order into an empty
database produces an internal root (page 2) with exactly one separator key
7, a left leaf with the 7 cells 1..7, a right leaf with the 7 cells 8..14,
and a full scan yields the 14 rows in ascending key order. -/
theorem c2_split_at_boundary :
    insert_run emptyDB keysC2 = t14 ∧
    t14.rootPage = 2 ∧
    t14.store 2 = Page.internal true 0 [(0, 7)] 1 ∧
    t14.store 0 = Page.leaf false 2
      [(1, mkRow 1), (2, mkRow 2), (3, mkRow 3), (4, mkRow 4), (5, mkRow 5), (6, mkRow 6),
        (7, mkRow 7)] 1 ∧
    t14.store 1 = Page.leaf false 2
      [(8, mkRow 8), (9, mkRow 9), (10, mkRow 10), (11, mkRow 11), (12, mkRow 12),
        (13, mkRow 13), (14, mkRow 14)] 0 ∧
    execute_select t14 FUEL = some ((List.range 14).map fun i => mkRow (i + 1)) :=
  ⟨run_t14, by decide, by decide, by decide, by decide, by decide⟩

/-- C1 (failing input): from the validator-passing reachable state after
inserting 1..15 and deleting 1, the completed delete of key 2 repairs the
leaf underflow by borrowing from the right sibling and leaves the parent
separator key[0] = 9 while the maximum key of child 0 is 8 — the invariant
`key[i] = max(subtree of child i)` claimed by the spec does not hold, and
consequently find misses the live key 9 that sits in the right leaf.  (The
weaker checks of validate_tree still pass.) -/
theorem c1_borrow_right_breaks_separator :
    insert_run emptyDB keys15 = u15 ∧
    delete_run u15 [1] = u16 ∧
    validate_tree u16 FUEL = true ∧
    (execute_delete u16 FUEL 2).1 = ExecRes.success ∧
    (execute_delete u16 FUEL 2).2 = u17 ∧
    u17.store u17.rootPage = Page.internal true 0 [(0, 9)] 1 ∧
    get_node_max_key u17 FUEL (u17.store 0) = 8 ∧
    (9, mkRow 9) ∈ leafCellsOf (u17.store 1) ∧
    execute_find u17 FUEL 9 = (ExecRes.recordNotFound, none) ∧
    validate_tree u17 FUEL = true :=
  ⟨run_u15, run_u16, by decide, by decide, by decide, by decide, by decide, by decide,
    by decide, by decide⟩

/-- C5 (failing input): in the same reachable, validator-passing state the
range scan [9, 9] returns no rows although the live row with key 9 is in
the right leaf: table_find lands at the end of the left leaf (the parent
separator 9 sends the descent left), the cursor starts as end_of_table and
the scan stops immediately. -/
theorem c5_range_misses_live_row :
    insert_run emptyDB keys15 = u15 ∧
    delete_run u15 [1] = u16 ∧
    (execute_delete u16 FUEL 2).2 = u17 ∧
    validate_tree u17 FUEL = true ∧
    (9, mkRow 9) ∈ leafCellsOf (u17.store 1) ∧
    execute_range u17 FUEL 9 9 = some [] :=
  ⟨run_u15, run_u16, by decide, by decide, by decide, by decide⟩

/-- C3 (counterexample): key 9 is present in a leaf of the reachable state
u17, yet inserting key 9 succeeds and modifies the tree (it lands in the
left leaf, duplicating the key), because the search descends to the wrong
leaf; so the claim does not hold for every key present in the tree. -/
theorem c3_insert_present_key_succeeds :
    insert_run emptyDB keys15 = u15 ∧
    delete_run u15 [1] = u16 ∧
    (execute_delete u16 FUEL 2).2 = u17 ∧
    (9, mkRow 9) ∈ leafCellsOf (u17.store 1) ∧
    (execute_insert u17 FUEL (mkRow 9)).1 = ExecRes.success ∧
    (execute_insert u17 FUEL (mkRow 9)).2.store 0 ≠ u17.store 0 :=
  ⟨run_u15, run_u16, by decide, by decide, by decide, by decide⟩

/-- C6: after inserting 1..14 and deleting 8..14 then 1..7, the tree is a
single empty leaf root (page 0), the validator passes, and the free list
head is nonzero (page 1 was freed by the merge). -/
theorem c6_root_collapse_and_freelist :
    insert_run emptyDB keysC2 = t14 ∧
    delete_run t14 keysC6 = v14 ∧
    v14.rootPage = 0 ∧
    v14.store 0 = Page.leaf true 0 [] 0 ∧
    validate_tree v14 FUEL = true ∧
    v14.freeHead ≠ 0 :=
  ⟨run_t14, run_v14, by decide, by decide, by decide, by decide⟩

/-! ## Pager open (C8) -/

/-- C8: opening an existing database file fails with the corrupt-file error
exactly when the file length is below 8 bytes or the length minus the
8-byte header is not a whole number of 4096-byte pages; otherwise the open
succeeds and derives num_pages = (file_length - 8) / 4096. -/
theorem c8_open_length_check (fileLength : Nat) :
    (pager_open_existing fileLength = none ↔
      fileLength < 8 ∨ (fileLength - 8) % 4096 ≠ 0) ∧
    (∀ n, pager_open_existing fileLength = some n → n = (fileLength - 8) / 4096) := by
  unfold pager_open_existing DB_FILE_HEADER_SIZE PAGE_SIZE
  constructor
  · split
    · simp_all
    · simp_all
  · intro n h
    split at h
    · exact absurd h (by simp)
    · simpa using h.symm

theorem c8_open_length_check_witness :
    (pager_open_existing 4104 = none ↔ 4104 < 8 ∨ (4104 - 8) % 4096 ≠ 0) ∧
    (1 : Nat) = (4104 - 8) / 4096 :=
  ⟨(c8_open_length_check 4104).1, (c8_open_length_check 4104).2 1 (by decide)⟩

/-! ## Row round-trip (C9) -/

theorem strncpy_slot_length (src : List Nat) (n : Nat) (h : src.length ≤ n) :
    (strncpy_slot src n).length = n := by
  simp [strncpy_slot]
  omega

theorem u32_roundtrip (n : Nat) (h : n < 4294967296) (rest : List Nat) :
    u32_of_le (u32_le n ++ rest) = n := by
  simp [u32_le, u32_of_le, List.getD]
  omega

theorem takeWhile_of_no_zero (u : List Nat) (m : Nat) (h0 : ∀ b ∈ u, b ≠ 0) :
    (u ++ List.replicate m 0).takeWhile (fun b => b ≠ 0) = u := by
  induction u with
  | nil =>
    cases m with
    | zero => rfl
    | succ k => simp [List.replicate_succ, List.takeWhile]
  | cons a t ih =>
    have ha : a ≠ 0 := h0 a (List.mem_cons_self a t)
    have ih2 := ih (fun b hb => h0 b (List.mem_cons_of_mem a hb))
    rw [List.cons_append, List.takeWhile_cons_of_pos (by simpa using ha), ih2]

theorem getD_replicate_zero (m i : Nat) (h : i < m) :
    (List.replicate m (0 : Nat)).getD i 1 = 0 := by
  induction m generalizing i with
  | zero => omega
  | succ k ih =>
    cases i with
    | zero => rfl
    | succ j => simpa [List.replicate_succ, List.getD] using ih j (by omega)

theorem getD_append_left_len (l1 l2 : List Nat) (i : Nat) (d : Nat) (h : i < l1.length) :
    (l1 ++ l2).getD i d = l1.getD i d := by
  induction l1 generalizing i with
  | nil => simp at h
  | cons a t ih =>
    cases i with
    | zero => rfl
    | succ j => simpa [List.getD] using ih j (by simpa using h)

theorem getD_append_right_len (l1 l2 : List Nat) (i : Nat) (d : Nat) (h : l1.length ≤ i) :
    (l1 ++ l2).getD i d = l2.getD (i - l1.length) d := by
  induction l1 generalizing i with
  | nil => simp
  | cons a t ih =>
    cases i with
    | zero => simp at h
    | succ j => simpa [List.getD] using ih j (by simpa using h)

/-- C9: for every Row whose username and email fit their fixed slots (at
most 32 and 255 content bytes, none of them zero) and whose id fits 32
bits, serializing yields the 291-byte cell value, deserializing it returns
the original row, and the unused tail of each fixed field is zero-padded. -/
theorem c9_row_roundtrip (r : Row)
    (hid : r.id < 4294967296)
    (hu : r.username.length ≤ USERNAME_SIZE)
    (hu0 : ∀ b ∈ r.username, b ≠ 0)
    (he : r.email.length ≤ EMAIL_SIZE)
    (he0 : ∀ b ∈ r.email, b ≠ 0) :
    (serialize_row r).length = ROW_SIZE ∧
    deserialize_row (serialize_row r) = r ∧
    (∀ i, r.username.length ≤ i → i < USERNAME_SIZE →
      (serialize_row r).getD (ID_SIZE + i) 1 = 0) ∧
    (∀ i, r.email.length ≤ i → i < EMAIL_SIZE →
      (serialize_row r).getD (ID_SIZE + USERNAME_SIZE + i) 1 = 0) := by
  have lu : (strncpy_slot r.username USERNAME_SIZE).length = USERNAME_SIZE :=
    strncpy_slot_length _ _ hu
  have le' : (strncpy_slot r.email EMAIL_SIZE).length = EMAIL_SIZE :=
    strncpy_slot_length _ _ he
  have hlen4 : (u32_le r.id).length = 4 := by simp [u32_le]
  refine ⟨?_, ?_, ?_, ?_⟩
  · simp [serialize_row, ROW_SIZE, ID_SIZE, USERNAME_SIZE, EMAIL_SIZE] at *
    omega
  · have hid' : u32_of_le (serialize_row r) = r.id := by
      simpa [serialize_row, List.append_assoc] using
        u32_roundtrip r.id hid
          (strncpy_slot r.username USERNAME_SIZE ++ strncpy_slot r.email EMAIL_SIZE)
    have hdrop4 : (serialize_row r).drop ID_SIZE =
        strncpy_slot r.username USERNAME_SIZE ++ strncpy_slot r.email EMAIL_SIZE := by
      simp [serialize_row, u32_le, ID_SIZE, List.drop]
    have husern : ((serialize_row r).drop ID_SIZE).take USERNAME_SIZE =
        strncpy_slot r.username USERNAME_SIZE := by
      rw [hdrop4, List.take_left' lu]
    have hmail : ((serialize_row r).drop (ID_SIZE + USERNAME_SIZE)).take EMAIL_SIZE =
        strncpy_slot r.email EMAIL_SIZE := by
      have : (serialize_row r).drop (ID_SIZE + USERNAME_SIZE) =
          strncpy_slot r.email EMAIL_SIZE := by
        have h36 : (u32_le r.id ++ strncpy_slot r.username USERNAME_SIZE).length =
            ID_SIZE + USERNAME_SIZE := by
          simp [hlen4, lu, ID_SIZE]
        calc (serialize_row r).drop (ID_SIZE + USERNAME_SIZE)
            = ((u32_le r.id ++ strncpy_slot r.username USERNAME_SIZE) ++
                strncpy_slot r.email EMAIL_SIZE).drop
                ((u32_le r.id ++ strncpy_slot r.username USERNAME_SIZE).length) := by
              rw [h36]; simp [serialize_row, List.append_assoc]
          _ = strncpy_slot r.email EMAIL_SIZE := List.drop_left _ _
      rw [this, List.take_of_length_le (by omega)]
    have hu' : (r.username.take USERNAME_SIZE) = r.username := List.take_of_length_le hu
    have he'' : (r.email.take EMAIL_SIZE) = r.email := List.take_of_length_le he
    cases r with
    | mk rid run rem =>
      simp only [deserialize_row, Row.mk.injEq]
      refine ⟨hid', ?_, ?_⟩
      · rw [husern]
        simp only [strncpy_slot]
        simpa [hu'] using takeWhile_of_no_zero run (USERNAME_SIZE - run.length) hu0
      · rw [hmail]
        simp only [strncpy_slot]
        simpa [he''] using takeWhile_of_no_zero rem (EMAIL_SIZE - rem.length) he0
  · intro i hlo hhi
    have h1 : (serialize_row r).getD (ID_SIZE + i) 1 =
        (strncpy_slot r.username USERNAME_SIZE ++ strncpy_slot r.email EMAIL_SIZE).getD i 1 := by
      have := getD_append_right_len (u32_le r.id)
        (strncpy_slot r.username USERNAME_SIZE ++ strncpy_slot r.email EMAIL_SIZE)
        (ID_SIZE + i) 1 (by simp [hlen4, ID_SIZE])
      simpa [serialize_row, List.append_assoc, hlen4, ID_SIZE] using this
    have h2 : (strncpy_slot r.username USERNAME_SIZE ++
        strncpy_slot r.email EMAIL_SIZE).getD i 1 =
        (strncpy_slot r.username USERNAME_SIZE).getD i 1 :=
      getD_append_left_len _ _ _ _ (by omega)
    have h3 : (strncpy_slot r.username USERNAME_SIZE).getD i 1 = 0 := by
      have hlen : (r.username.take USERNAME_SIZE).length = r.username.length := by
        rw [List.take_of_length_le hu]
      have := getD_append_right_len (r.username.take USERNAME_SIZE)
        (List.replicate (USERNAME_SIZE - r.username.length) 0) i 1 (by omega)
      rw [strncpy_slot, this, hlen]
      exact getD_replicate_zero _ _ (by omega)
    rw [h1, h2, h3]
  · intro i hlo hhi
    have h36 : (u32_le r.id ++ strncpy_slot r.username USERNAME_SIZE).length =
        ID_SIZE + USERNAME_SIZE := by simp [hlen4, lu, ID_SIZE]
    have h1 : (serialize_row r).getD (ID_SIZE + USERNAME_SIZE + i) 1 =
        (strncpy_slot r.email EMAIL_SIZE).getD i 1 := by
      have := getD_append_right_len (u32_le r.id ++ strncpy_slot r.username USERNAME_SIZE)
        (strncpy_slot r.email EMAIL_SIZE) (ID_SIZE + USERNAME_SIZE + i) 1 (by omega)
      simpa [serialize_row, List.append_assoc, h36] using this
    have h3 : (strncpy_slot r.email EMAIL_SIZE).getD i 1 = 0 := by
      have hlen : (r.email.take EMAIL_SIZE).length = r.email.length := by
        rw [List.take_of_length_le he]
      have := getD_append_right_len (r.email.take EMAIL_SIZE)
        (List.replicate (EMAIL_SIZE - r.email.length) 0) i 1 (by omega)
      rw [strncpy_slot, this, hlen]
      exact getD_replicate_zero _ _ (by omega)
    rw [h1, h3]

theorem c9_row_roundtrip_witness :
    (serialize_row ⟨5, [97], [98, 64]⟩).length = ROW_SIZE ∧
    deserialize_row (serialize_row ⟨5, [97], [98, 64]⟩) = ⟨5, [97], [98, 64]⟩ :=
  have h := c9_row_roundtrip ⟨5, [97], [98, 64]⟩ (by decide) (by decide) (by decide)
    (by decide) (by decide)
  ⟨h.1, h.2.1⟩

/-! ## Page-table update laws -/

theorem storeGet_storeSet (st : List (Nat × Page)) (p : Nat) (pg : Page) (q : Nat) :
    storeGet (storeSet st p pg) q = if q = p then pg else storeGet st q := by
  induction st with
  | nil =>
    by_cases h : q = p
    · simp [storeSet, storeGet, h]
    · simp [storeSet, storeGet, h, Ne.symm h]
  | cons e rest ih =>
    by_cases he : e.1 = p
    · by_cases hq : q = p
      · simp [storeSet, storeGet, he, hq]
      · have : ¬(e.1 = q) := fun hh => hq (by rw [← hh, he])
        simp [storeSet, storeGet, he, hq, Ne.symm hq, this]
    · by_cases heq : e.1 = q
      · have : ¬(q = p) := fun hh => he (by rw [heq, hh])
        simp [storeSet, storeGet, he, heq, this]
      · simp [storeSet, storeGet, he, heq, ih]

theorem store_setPage (s : DB) (p : Nat) (pg : Page) (q : Nat) :
    (setPage s p pg).store q = if q = p then pg else s.store q :=
  storeGet_storeSet s.pages p pg q

theorem store_setPage_same (s : DB) (p : Nat) (pg : Page) :
    (setPage s p pg).store p = pg := by
  simp [store_setPage]

theorem store_setPage_other (s : DB) (p : Nat) (pg : Page) (q : Nat) (h : q ≠ p) :
    (setPage s p pg).store q = s.store q := by
  simp [store_setPage, h]

/-! ## Free list round trip (C7) -/

/-- C7 counterexample: from the pager state with free chain `5` and six
pages, free_page(0) pushes page 0 by setting free_head := 0 — which is the
empty-chain sentinel — so the immediately following allocate_page does not
return 0 and does not restore free_head to 5; it allocates the fresh page 6
instead.  The claimed free/allocate round trip fails at p = 0. -/
theorem c7_free_zero_breaks_reuse :
    (get_unused_page_num (free_page ⟨[(5, Page.free 0)], 0, 5, 6⟩ 0)).1 ≠ 0 ∧
    (get_unused_page_num (free_page ⟨[(5, Page.free 0)], 0, 5, 6⟩ 0)).2.freeHead ≠ 5 := by
  decide

/-- C7 (amended to nonzero in-bounds page numbers): free_page(p) writes the
current free_head into the first four bytes of page p and sets
free_head := p; an immediately following allocate_page returns p with the
buffer zeroed, restores free_head, and touches no other page; and when
free_head = 0, allocate_page returns the old num_pages and bumps it. -/
theorem c7_free_then_allocate (s : DB) (p : Nat) (hp : 0 < p) (hlt : p < TABLE_MAX_PAGES) :
    (free_page s p).store p = Page.free s.freeHead ∧
    (free_page s p).freeHead = p ∧
    (get_unused_page_num (free_page s p)).1 = p ∧
    (get_unused_page_num (free_page s p)).2.store p = Page.zeroed ∧
    (get_unused_page_num (free_page s p)).2.freeHead = s.freeHead ∧
    (∀ q, q ≠ p → (get_unused_page_num (free_page s p)).2.store q = s.store q) ∧
    (s.freeHead = 0 →
      get_unused_page_num s = (s.numPages, { s with numPages := s.numPages + 1 })) := by
  have hnot : ¬(p ≥ TABLE_MAX_PAGES) := by omega
  have hfree : free_page s p =
      { setPage s p (Page.free s.freeHead) with freeHead := p } := by
    simp [free_page, pager_get_page, hnot, hlt]
  have hstorep : (free_page s p).store p = Page.free s.freeHead := by
    rw [hfree]
    show (setPage s p (Page.free s.freeHead)).store p = _
    exact store_setPage_same _ _ _
  have hfh : (free_page s p).freeHead = p := by rw [hfree]
  have halloc : get_unused_page_num (free_page s p) =
      (p, setPage { free_page s p with freeHead := Page.firstU32 (Page.free s.freeHead) } p
        .zeroed) := by
    have hpn : ¬(p = 0) := by omega
    have hget : pager_get_page (free_page s p) p = some (Page.free s.freeHead) := by
      simp [pager_get_page, hlt, hstorep]
    simp [get_unused_page_num, hfh, hpn, hget]
  refine ⟨hstorep, hfh, ?_, ?_, ?_, ?_, ?_⟩
  · rw [halloc]
  · rw [halloc]
    exact store_setPage_same _ _ _
  · rw [halloc]
    show (setPage { free_page s p with freeHead := _ } p Page.zeroed).freeHead = _
    simp [setPage, Page.firstU32]
  · intro q hq
    rw [halloc]
    show (setPage { free_page s p with freeHead := _ } p Page.zeroed).store q = _
    rw [store_setPage_other _ _ _ _ hq]
    show (free_page s p).store q = s.store q
    rw [hfree]
    show (setPage s p (Page.free s.freeHead)).store q = s.store q
    exact store_setPage_other _ _ _ _ hq
  · intro h0
    simp [get_unused_page_num, h0]

theorem c7_free_then_allocate_witness :
    (free_page ⟨[(3, Page.free 0)], 0, 3, 4⟩ 2).freeHead = 2 ∧
    (get_unused_page_num (free_page ⟨[(3, Page.free 0)], 0, 3, 4⟩ 2)).1 = 2 ∧
    (get_unused_page_num (free_page ⟨[(3, Page.free 0)], 0, 3, 4⟩ 2)).2.freeHead = 3 := by
  have h := c7_free_then_allocate ⟨[(3, Page.free 0)], 0, 3, 4⟩ 2 (by decide) (by decide)
  exact ⟨h.2.1, h.2.2.1, h.2.2.2.2.1⟩

/-! ## Duplicate-key insert (C3, amended) -/

/-- C3 (amended to presence at the search cursor): whenever table_find
positions the cursor on an existing cell holding the key — which is what
the source checks via find_key_location — execute_insert returns
DuplicateKey and returns the state unchanged, so a subsequent find of the
key answers exactly as before the attempt. -/
theorem c3_duplicate_key_unchanged (s : DB) (fuel : Nat) (row : Row) (cur : Cursor)
    (h : find_key_location s fuel row.id = some (cur, true)) :
    execute_insert s fuel row = (ExecRes.duplicateKey, s) ∧
    execute_find (execute_insert s fuel row).2 fuel row.id = execute_find s fuel row.id := by
  have h1 : execute_insert s fuel row = (ExecRes.duplicateKey, s) := by
    simp [execute_insert, h]
  exact ⟨h1, by rw [h1]⟩

theorem c3_duplicate_key_unchanged_witness :
    execute_insert ⟨[(0, Page.leaf true 0 [(5, mkRow 5)] 0)], 0, 0, 1⟩ FUEL (mkRow 5) =
      (ExecRes.duplicateKey, ⟨[(0, Page.leaf true 0 [(5, mkRow 5)] 0)], 0, 0, 1⟩) :=
  (c3_duplicate_key_unchanged ⟨[(0, Page.leaf true 0 [(5, mkRow 5)] 0)], 0, 0, 1⟩ FUEL
    (mkRow 5) ⟨0, 0, false⟩ (by decide)).1

/-! ## Borrow from the right sibling (C4) -/

/-- C4: when a leaf underflow is repaired by borrowing from the right
sibling (the sibling holds more than LEAF_NODE_MIN_CELLS = 6 cells), the
sibling's first cell is appended to the underflowing leaf, the sibling's
remaining cells shift left by one, and the parent separator at the
underflowing child's index becomes the new first key of the right sibling.
The three pages are distinct, as they are in any tree. -/
theorem c4_borrow_from_right (f : Nat) (s : DB) (pageNum npar rsib : Nat)
    (ncells : List (Nat × Row)) (nnx : Nat)
    (pr : Bool) (pp : Nat) (pcells : List (Nat × Nat)) (prc : Nat)
    (rr : Bool) (rpar rnx : Nat) (rc0 rc1 : Nat × Row) (rrest : List (Nat × Row))
    (i : Nat)
    (hpageLt : pageNum < TABLE_MAX_PAGES)
    (hpage : s.store pageNum = Page.leaf false npar ncells nnx)
    (hparLt : npar < TABLE_MAX_PAGES)
    (hparent : s.store npar = Page.internal pr pp pcells prc)
    (hidx : find_child_index_in_parent pcells prc pageNum = some i)
    (hlt : i < pcells.length)
    (hrs : (if i = pcells.length - 1 then prc else (pcells.getD (i + 1) (0, 0)).1) = rsib)
    (hrsLt : rsib < TABLE_MAX_PAGES)
    (hright : s.store rsib = Page.leaf rr rpar (rc0 :: rc1 :: rrest) rnx)
    (hbig : (rc0 :: rc1 :: rrest).length > LEAF_NODE_MIN_CELLS)
    (hne1 : pageNum ≠ npar) (hne2 : rsib ≠ pageNum) (hne3 : rsib ≠ npar) :
    (handle_leaf_underflow (f + 1) s pageNum).store pageNum =
      Page.leaf false npar (ncells ++ [rc0]) nnx ∧
    (handle_leaf_underflow (f + 1) s pageNum).store rsib =
      Page.leaf rr rpar (rc1 :: rrest) rnx ∧
    (handle_leaf_underflow (f + 1) s pageNum).store npar =
      Page.internal pr pp (setKeyAt pcells i rc1.1) prc := by
  have hg1 : pager_get_page s pageNum = some (Page.leaf false npar ncells nnx) := by
    simp [pager_get_page, hpageLt, hpage]
  have hg2 : pager_get_page s npar = some (Page.internal pr pp pcells prc) := by
    simp [pager_get_page, hparLt, hparent]
  have hg3 : pager_get_page s rsib = some (Page.leaf rr rpar (rc0 :: rc1 :: rrest) rnx) := by
    simp [pager_get_page, hrsLt, hright]
  have hresult : handle_leaf_underflow (f + 1) s pageNum =
      setPage (setPage (setPage s pageNum (Page.leaf false npar (ncells ++ [rc0]) nnx))
          rsib (Page.leaf rr rpar (rc1 :: rrest) rnx))
        npar (Page.internal pr pp (setKeyAt pcells i rc1.1) prc) := by
    simp only [handle_leaf_underflow, hg1, hg2, hidx]
    rw [hrs]
    simp only [hg3]
    have hbig2 : LEAF_NODE_MIN_CELLS < rrest.length + 1 + 1 := by simpa using hbig
    simp [hlt, hbig2, borrow_leaf_right, List.getD]
  rw [hresult]
  refine ⟨?_, ?_, ?_⟩
  · rw [store_setPage_other _ _ _ _ hne1, store_setPage_other _ _ _ _ (Ne.symm hne2),
      store_setPage_same]
  · rw [store_setPage_other _ _ _ _ hne3, store_setPage_same]
  · rw [store_setPage_same]

theorem c4_borrow_from_right_witness :
    (handle_leaf_underflow FUEL
        ⟨[(0, Page.leaf false 2
            [(1, mkRow 1), (2, mkRow 2), (3, mkRow 3), (4, mkRow 4), (5, mkRow 5)] 1),
          (1, Page.leaf false 2
            [(10, mkRow 10), (11, mkRow 11), (12, mkRow 12), (13, mkRow 13), (14, mkRow 14),
              (15, mkRow 15), (16, mkRow 16)] 0),
          (2, Page.internal true 0 [(0, 9)] 1)], 2, 0, 3⟩ 0).store 2 =
      Page.internal true 0 [(0, 11)] 1 := by
  have h := c4_borrow_from_right 19
    ⟨[(0, Page.leaf false 2
        [(1, mkRow 1), (2, mkRow 2), (3, mkRow 3), (4, mkRow 4), (5, mkRow 5)] 1),
      (1, Page.leaf false 2
        [(10, mkRow 10), (11, mkRow 11), (12, mkRow 12), (13, mkRow 13), (14, mkRow 14),
          (15, mkRow 15), (16, mkRow 16)] 0),
      (2, Page.internal true 0 [(0, 9)] 1)], 2, 0, 3⟩
    0 2 1
    [(1, mkRow 1), (2, mkRow 2), (3, mkRow 3), (4, mkRow 4), (5, mkRow 5)] 1
    true 0 [(0, 9)] 1
    false 2 0 (10, mkRow 10) (11, mkRow 11)
    [(12, mkRow 12), (13, mkRow 13), (14, mkRow 14), (15, mkRow 15), (16, mkRow 16)]
    0
    (by decide) (by decide) (by decide) (by decide) (by decide) (by decide)
    (by decide) (by decide) (by decide) (by decide) (by decide) (by decide) (by decide)
  simpa using h.2.2

/-! ## Preservation of the key-equals-id invariant (towards C10) -/

theorem pageOk_internal (r : Bool) (p : Nat) (cs : List (Nat × Nat)) (rc : Nat) :
    pageOk (Page.internal r p cs rc) := by
  intro c hc
  simp [leafCellsOf] at hc

theorem pageOk_free (n : Nat) : pageOk (Page.free n) := by
  intro c hc
  simp [leafCellsOf] at hc

theorem pageOk_zeroed : pageOk Page.zeroed := by
  intro c hc
  simp [leafCellsOf] at hc

theorem cellsOk_setPage {s : DB} {pg : Page} (p : Nat) (h : cellsOk s) (hp : pageOk pg) :
    cellsOk (setPage s p pg) := by
  intro q
  rw [show (setPage s p pg).store q = _ from store_setPage s p pg q]
  split
  · exact hp
  · exact h q

theorem cellsOk_same_pages {s s' : DB} (h : s'.pages = s.pages) (hs : cellsOk s) :
    cellsOk s' := by
  intro q
  show pageOk (storeGet s'.pages q)
  rw [h]
  exact hs q

theorem pager_get_page_some {s : DB} {p : Nat} {pg : Page}
    (h : pager_get_page s p = some pg) : s.store p = pg := by
  unfold pager_get_page at h
  split at h
  · exact Option.some.inj h
  · exact absurd h (by simp)

theorem pageOk_of_get {s : DB} {p : Nat} {pg : Page} (hs : cellsOk s)
    (h : pager_get_page s p = some pg) : pageOk pg := by
  rw [← pager_get_page_some h]
  exact hs p

theorem pageOk_setParentField {pg : Page} (n : Nat) (h : pageOk pg) :
    pageOk (pg.setParentField n) := by
  cases pg <;> exact h

theorem pageOk_setRootFlag {pg : Page} (b : Bool) (h : pageOk pg) :
    pageOk (pg.setRootFlag b) := by
  cases pg <;> exact h

theorem cellsPred_nil : cellsPred ([] : List (Nat × Row)) := by
  intro c hc
  simp at hc

theorem cellsPred_sub {l1 l2 : List (Nat × Row)} (hsub : l1 ⊆ l2) (h : cellsPred l2) :
    cellsPred l1 :=
  fun c hc => h c (hsub hc)

theorem cellsPred_append {l1 l2 : List (Nat × Row)} (h1 : cellsPred l1) (h2 : cellsPred l2) :
    cellsPred (l1 ++ l2) := by
  intro c hc
  rcases List.mem_append.mp hc with h | h
  · exact h1 c h
  · exact h2 c h

theorem cellsPred_cons {c : Nat × Row} {l : List (Nat × Row)} (hc : c.1 = c.2.id)
    (h : cellsPred l) : cellsPred (c :: l) := by
  intro d hd
  rcases List.mem_cons.mp hd with rfl | hh
  · exact hc
  · exact h d hh

theorem cellsPred_take {l : List (Nat × Row)} (i : Nat) (h : cellsPred l) :
    cellsPred (l.take i) :=
  cellsPred_sub (List.take_subset i l) h

theorem cellsPred_drop {l : List (Nat × Row)} (i : Nat) (h : cellsPred l) :
    cellsPred (l.drop i) :=
  cellsPred_sub (List.drop_subset i l) h

theorem cellsPred_tail {l : List (Nat × Row)} (h : cellsPred l) : cellsPred l.tail :=
  cellsPred_sub (List.tail_subset l) h

theorem cellsPred_dropLast {l : List (Nat × Row)} (h : cellsPred l) :
    cellsPred l.dropLast :=
  cellsPred_sub (List.dropLast_subset l) h

theorem cellsPred_insertAt {l : List (Nat × Row)} {c : Nat × Row} (i : Nat)
    (hc : c.1 = c.2.id) (h : cellsPred l) : cellsPred (insertAt l i c) :=
  cellsPred_append (cellsPred_take i h) (cellsPred_cons hc (cellsPred_drop i h))

theorem cellsPred_eraseAt {l : List (Nat × Row)} (i : Nat) (h : cellsPred l) :
    cellsPred (eraseAt l i) := by
  unfold eraseAt
  split
  · exact cellsPred_append (cellsPred_take i h) (cellsPred_drop (i + 1) h)
  · exact cellsPred_dropLast h

theorem cellsPred_set {l : List (Nat × Row)} {c : Nat × Row} (i : Nat) (hc : c.1 = c.2.id)
    (h : cellsPred l) : cellsPred (l.set i c) := by
  intro d hd
  rcases List.mem_or_eq_of_mem_set hd with hh | rfl
  · exact h d hh
  · exact hc

theorem mem_getD_or {α : Type} (l : List α) (i : Nat) (d : α) :
    l.getD i d ∈ l ∨ l.getD i d = d := by
  induction l generalizing i with
  | nil =>
    right
    cases i <;> rfl
  | cons a t ih =>
    cases i with
    | zero => exact Or.inl (List.mem_cons_self a t)
    | succ j =>
      rcases ih j with h | h
      · exact Or.inl (List.mem_cons_of_mem a h)
      · exact Or.inr h

theorem cellsPred_getD {l : List (Nat × Row)} (i : Nat) (h : cellsPred l) :
    (l.getD i dummyCell).1 = (l.getD i dummyCell).2.id := by
  rcases mem_getD_or l i dummyCell with hm | he
  · exact h _ hm
  · rw [he]
    rfl

theorem cellsOk_get_unused {s : DB} (h : cellsOk s) : cellsOk (get_unused_page_num s).2 := by
  unfold get_unused_page_num
  split
  · exact cellsOk_same_pages rfl h
  · split
    · exact cellsOk_same_pages rfl h
    · exact cellsOk_setPage _ (cellsOk_same_pages rfl h) pageOk_zeroed

theorem cellsOk_free_page {s : DB} (p : Nat) (h : cellsOk s) : cellsOk (free_page s p) := by
  unfold free_page
  split
  · exact h
  · split
    · exact h
    · exact cellsOk_same_pages rfl (cellsOk_setPage _ h (pageOk_free _))

theorem cellsOk_reparentAll (l : List Nat) (n : Nat) {s : DB} (h : cellsOk s) :
    cellsOk (reparentAll s l n) := by
  induction l generalizing s with
  | nil => exact h
  | cons a t ih =>
    unfold reparentAll
    rw [List.foldl_cons]
    refine ih ?_
    dsimp only
    split
    · exact cellsOk_setPage _ h (pageOk_setParentField _ (h a))
    · exact h

theorem pageOk_store {s : DB} (hs : cellsOk s) (p : Nat) : pageOk (s.store p) := hs p

theorem cellsOk_mk {s : DB} (rp fh np : Nat) (h : cellsOk s) :
    cellsOk ⟨s.pages, rp, fh, np⟩ := cellsOk_same_pages rfl h

theorem cellsOk_setPage_internal {s : DB} (p : Nat) (r : Bool) (pp : Nat)
    (cs : List (Nat × Nat)) (rc : Nat) (h : cellsOk s) :
    cellsOk (setPage s p (Page.internal r pp cs rc)) :=
  cellsOk_setPage _ h (pageOk_internal _ _ _ _)

theorem cellsOk_setPage_parentF {s : DB} (p q n : Nat) (h : cellsOk s) :
    cellsOk (setPage s p ((s.store q).setParentField n)) :=
  cellsOk_setPage _ h (pageOk_setParentField _ (h q))

theorem cellsOk_setPage_rootF {s : DB} (p q : Nat) (b : Bool) (h : cellsOk s) :
    cellsOk (setPage s p ((s.store q).setRootFlag b)) :=
  cellsOk_setPage _ h (pageOk_setRootFlag _ (h q))

theorem cellsOk_setPage_zeroed {s : DB} (p : Nat) (h : cellsOk s) :
    cellsOk (setPage s p Page.zeroed) :=
  cellsOk_setPage _ h pageOk_zeroed

theorem cellsOk_setPage_free {s : DB} (p n : Nat) (h : cellsOk s) :
    cellsOk (setPage s p (Page.free n)) :=
  cellsOk_setPage _ h (pageOk_free _)

theorem cellsOk_setPage_leaf {s : DB} (p : Nat) (r : Bool) (pp : Nat)
    {cells : List (Nat × Row)} (nx : Nat) (hc : cellsPred cells) (h : cellsOk s) :
    cellsOk (setPage s p (Page.leaf r pp cells nx)) :=
  cellsOk_setPage _ h hc

theorem cellsOk_create_new_root {s : DB} (fuel rc : Nat) (h : cellsOk s) :
    cellsOk (create_new_root s fuel rc) := by
  unfold create_new_root
  split
  · exact h
  · split
    · exact h
    · dsimp only
      split
      · exact cellsOk_get_unused h
      · exact cellsOk_setPage_rootF _ _ _ (cellsOk_setPage_rootF _ _ _ (cellsOk_mk _ _ _
          (cellsOk_setPage_parentF _ _ _ (cellsOk_setPage_parentF _ _ _
            (cellsOk_setPage_internal _ _ _ _ _ (cellsOk_get_unused h))))))

theorem cellsOk_internal_pair (f : Nat) :
    (∀ (s : DB) (a b : Nat), cellsOk s → cellsOk (internal_node_insert f s a b)) ∧
    (∀ (s : DB) (a b : Nat), cellsOk s → cellsOk (internal_node_split_and_insert f s a b)) := by
  induction f with
  | zero => exact ⟨fun s a b h => h, fun s a b h => h⟩
  | succ f ih =>
    constructor
    · intro s a b h
      unfold internal_node_insert
      split
      · split
        · exact h
        · try dsimp only
          split
          · exact ih.2 _ _ _ h
          · split
            · exact h
            · try dsimp only
              split
              · exact cellsOk_setPage_internal _ _ _ _ _ h
              · exact cellsOk_setPage_internal _ _ _ _ _ h
      · exact h
    · intro s a b h
      unfold internal_node_split_and_insert
      split
      · try dsimp only
        split
        · exact cellsOk_get_unused h
        · split
          · exact cellsOk_setPage_internal _ _ _ _ _ (cellsOk_get_unused h)
          · try dsimp only
            split
            · exact cellsOk_create_new_root _ _
                (cellsOk_setPage_parentF _ _ _ (cellsOk_reparentAll _ _ (cellsOk_reparentAll _ _
                  (cellsOk_setPage_internal _ _ _ _ _ (cellsOk_setPage_internal _ _ _ _ _
                    (cellsOk_setPage_internal _ _ _ _ _ (cellsOk_get_unused h)))))))
            · split
              · exact ih.1 _ _ _ (cellsOk_setPage_internal _ _ _ _ _
                  (cellsOk_setPage_parentF _ _ _ (cellsOk_reparentAll _ _ (cellsOk_reparentAll _ _
                    (cellsOk_setPage_internal _ _ _ _ _ (cellsOk_setPage_internal _ _ _ _ _
                      (cellsOk_setPage_internal _ _ _ _ _ (cellsOk_get_unused h))))))))
              · exact cellsOk_setPage_parentF _ _ _ (cellsOk_reparentAll _ _ (cellsOk_reparentAll _ _
                  (cellsOk_setPage_internal _ _ _ _ _ (cellsOk_setPage_internal _ _ _ _ _
                    (cellsOk_setPage_internal _ _ _ _ _ (cellsOk_get_unused h))))))
      · exact h

theorem cellsOk_leaf_node_insert {s : DB} (cur : Cursor) (key : Nat) (value : Row)
    (hk : key = value.id) (h : cellsOk s) : cellsOk (leaf_node_insert s cur key value) := by
  unfold leaf_node_insert
  split
  · rename_i r par cells nx heq
    exact cellsOk_setPage_leaf _ _ _ _ (cellsPred_insertAt _ hk (pageOk_of_get h heq)) h
  · exact h

theorem cellsOk_split_leaf_pages {s : DB} (oldPage newPage : Nat) (oldRoot : Bool)
    (oldPar : Nat) {oldCells : List (Nat × Row)} (oldNext : Nat)
    (hc : cellsPred oldCells) (h : cellsOk s) :
    cellsOk (split_leaf_pages s oldPage newPage oldRoot oldPar oldCells oldNext) := by
  unfold split_leaf_pages
  exact cellsOk_setPage_leaf _ _ _ _ (cellsPred_drop _ hc)
    (cellsOk_setPage_leaf _ _ _ _ (cellsPred_take _ hc)
      (cellsOk_setPage_leaf _ _ _ _ (cellsPred_drop _ hc)
        (cellsOk_setPage_leaf _ _ _ _ hc
          (cellsOk_setPage_leaf _ _ _ _ cellsPred_nil h))))

theorem cellsOk_split_update_parent {s : DB} (fuel parentPageNum oldPage newPage : Nat)
    (h : cellsOk s) : cellsOk (split_update_parent s fuel parentPageNum oldPage newPage) := by
  unfold split_update_parent
  split
  · exact (cellsOk_internal_pair fuel).1 _ _ _ (cellsOk_setPage_internal _ _ _ _ _ h)
  · exact h

theorem cellsOk_split_insert_half {s : DB} (splitAt oldPage newPage key : Nat) (value : Row)
    (hk : key = value.id) (h : cellsOk s) :
    cellsOk (split_insert_half s splitAt oldPage newPage key value) := by
  unfold split_insert_half
  split
  · split
    · split
      · exact cellsOk_leaf_node_insert _ _ _ hk h
      · exact h
    · split
      · exact cellsOk_leaf_node_insert _ _ _ hk h
      · exact h
  · exact h

theorem cellsOk_leaf_split_ins {s : DB} (fuel : Nat) (cur : Cursor) (key : Nat) (value : Row)
    (hk : key = value.id) (h : cellsOk s) :
    cellsOk (leaf_node_split_and_insert s fuel cur key value) := by
  unfold leaf_node_split_and_insert
  split
  · try dsimp only
    split
    · exact cellsOk_get_unused h
    · split
      · rename_i oldRoot oldPar oldCells oldNext heq2
        have h1 : cellsOk (get_unused_page_num s).2 := cellsOk_get_unused h
        have hcells : cellsPred oldCells := pageOk_of_get h1 heq2
        apply cellsOk_split_insert_half _ _ _ _ _ hk
        split
        · exact cellsOk_create_new_root _ _ (cellsOk_split_leaf_pages _ _ _ _ _ hcells h1)
        · exact cellsOk_split_update_parent _ _ _ _
            (cellsOk_split_leaf_pages _ _ _ _ _ hcells h1)
      · exact cellsOk_get_unused h
  · exact h

theorem cellsOk_rederive {s : DB} (fuel parentPageNum start : Nat) (h : cellsOk s) :
    cellsOk (rederive_parent_keys s fuel parentPageNum start) := by
  unfold rederive_parent_keys
  split
  · exact cellsOk_setPage_internal _ _ _ _ _ h
  · exact h

theorem cellsOk_handle_internal (f : Nat) :
    ∀ (s : DB) (p : Nat), cellsOk s → cellsOk (handle_internal_underflow f s p) := by
  induction f with
  | zero => exact fun s p h => h
  | succ f _ =>
    intro s p h
    simp only [handle_internal_underflow]
    split
    · split
      · exact h
      · split
        · split
          · exact h
          · try dsimp only
            split
            · rename_i st heq
              split at heq
              · split at heq
                · split at heq
                  · exact Option.some.inj heq ▸ h
                  · exact absurd heq (by simp)
                · exact absurd heq (by simp)
              · exact absurd heq (by simp)
            · split
              · rename_i st heq
                split at heq
                · split at heq
                  · split at heq
                    · refine Option.some.inj heq ▸ ?_
                      apply cellsOk_setPage_internal
                      apply cellsOk_setPage_internal
                      split
                      · apply cellsOk_setPage_parentF
                        apply cellsOk_setPage_internal
                        exact h
                      · apply cellsOk_setPage_internal
                        exact h
                    · exact absurd heq (by simp)
                  · exact absurd heq (by simp)
                · exact absurd heq (by simp)
              · exact h
        · exact h
    · exact h

theorem cellsPred_getD_cell {l : List (Nat × Row)} (i : Nat) (h : cellsPred l) :
    cellsPred [l.getD i dummyCell] :=
  cellsPred_cons (cellsPred_getD i h) cellsPred_nil

theorem cellsOk_borrow_leaf_right {s : DB} (pageNum rsib parentPageNum : Nat) (nr : Bool)
    (npar : Nat) {ncells : List (Nat × Row)} (nnx : Nat) (pr : Bool) (pp : Nat)
    (pcells : List (Nat × Nat)) (prc : Nat) (childIndex : Nat) (rr : Bool) (rpar : Nat)
    {rcells : List (Nat × Row)} (rnx : Nat)
    (hn : cellsPred ncells) (hr : cellsPred rcells) (h : cellsOk s) :
    cellsOk (borrow_leaf_right s pageNum rsib parentPageNum nr npar ncells nnx pr pp pcells
      prc childIndex rr rpar rcells rnx) := by
  unfold borrow_leaf_right
  exact cellsOk_setPage_internal _ _ _ _ _
    (cellsOk_setPage_leaf _ _ _ _ (cellsPred_tail hr)
      (cellsOk_setPage_leaf _ _ _ _ (cellsPred_append hn (cellsPred_getD_cell _ hr)) h))

theorem cellsOk_borrow_leaf_left {s : DB} (f pageNum lsib parentPageNum : Nat) (nr : Bool)
    (npar : Nat) {ncells : List (Nat × Row)} (nnx : Nat) (pr : Bool) (pp : Nat)
    (pcells : List (Nat × Nat)) (prc : Nat) (childIndex : Nat) (lr : Bool) (lpar : Nat)
    {lcells : List (Nat × Row)} (lnx : Nat)
    (hn : cellsPred ncells) (hl : cellsPred lcells) (h : cellsOk s) :
    cellsOk (borrow_leaf_left s f pageNum lsib parentPageNum nr npar ncells nnx pr pp pcells
      prc childIndex lr lpar lcells lnx) := by
  unfold borrow_leaf_left
  exact cellsOk_setPage_internal _ _ _ _ _
    (cellsOk_setPage_leaf _ _ _ _ (cellsPred_dropLast hl)
      (cellsOk_setPage_leaf _ _ _ _ (cellsPred_cons (cellsPred_getD _ hl) hn) h))

theorem cellsOk_merge_epilogue {s3 : DB} (f parentPageNum survivor freed : Nat)
    (h : cellsOk s3) : cellsOk (merge_epilogue s3 f parentPageNum survivor freed) := by
  unfold merge_epilogue
  split
  · split
    · exact cellsOk_free_page _ (cellsOk_setPage_parentF _ _ _
        (cellsOk_setPage_rootF _ _ _ (cellsOk_mk _ _ _ h)))
    · split
      · exact cellsOk_handle_internal _ _ _ (cellsOk_free_page _ h)
      · exact cellsOk_free_page _ h
  · exact h

theorem cellsOk_merge_leaf_into_left {s : DB} (f pageNum parentPageNum lsib : Nat)
    {ncells : List (Nat × Row)} (nnx : Nat) (pr : Bool) (pp : Nat)
    (pcells : List (Nat × Nat)) (prc : Nat) (childIndex : Nat)
    (hn : cellsPred ncells) (h : cellsOk s) :
    cellsOk (merge_leaf_into_left s f pageNum parentPageNum lsib ncells nnx pr pp pcells prc
      childIndex) := by
  unfold merge_leaf_into_left
  split
  · rename_i lr lpar lcells lnx heq
    exact cellsOk_merge_epilogue _ _ _ _ (cellsOk_rederive _ _ _
      (cellsOk_setPage_internal _ _ _ _ _
        (cellsOk_setPage_leaf _ _ _ _ (cellsPred_append (pageOk_of_get h heq) hn) h)))
  · exact h

theorem cellsOk_merge_leaf_into_right {s : DB} (f pageNum parentPageNum rsib : Nat)
    (nr : Bool) (npar : Nat) {ncells : List (Nat × Row)} (pr : Bool) (pp : Nat)
    (pcells : List (Nat × Nat)) (prc : Nat) (childIndex : Nat)
    (hn : cellsPred ncells) (h : cellsOk s) :
    cellsOk (merge_leaf_into_right s f pageNum parentPageNum rsib nr npar ncells pr pp pcells
      prc childIndex) := by
  unfold merge_leaf_into_right
  split
  · rename_i a b rcells rnx heq
    exact cellsOk_merge_epilogue _ _ _ _ (cellsOk_rederive _ _ _
      (cellsOk_setPage_internal _ _ _ _ _
        (cellsOk_setPage_leaf _ _ _ _ (cellsPred_append hn (pageOk_of_get h heq)) h)))
  · exact h

theorem cellsOk_handle_leaf (f : Nat) :
    ∀ (s : DB) (p : Nat), cellsOk s → cellsOk (handle_leaf_underflow f s p) := by
  induction f with
  | zero => exact fun s p h => h
  | succ f _ =>
    intro s p h
    simp only [handle_leaf_underflow]
    split
    · rename_i nr npar ncells nnx heqn
      have hn : cellsPred ncells := pageOk_of_get h heqn
      split
      · exact h
      · split
        · split
          · exact h
          · try dsimp only
            split
            · rename_i st heq
              split at heq
              · split at heq
                · split at heq
                  · rename_i rr rpar rcells rnx heqr _
                    refine Option.some.inj heq ▸ ?_
                    exact cellsOk_borrow_leaf_right _ _ _ _ _ _ _ _ _ _ _ _ _ _ hn
                      (pageOk_of_get h heqr) h
                  · exact absurd heq (by simp)
                · exact absurd heq (by simp)
              · exact absurd heq (by simp)
            · split
              · rename_i st heq
                split at heq
                · split at heq
                  · split at heq
                    · rename_i lr lpar lcells lnx heql _
                      refine Option.some.inj heq ▸ ?_
                      exact cellsOk_borrow_leaf_left _ _ _ _ _ _ _ _ _ _ _ _ _ _ _ hn
                        (pageOk_of_get h heql) h
                    · exact absurd heq (by simp)
                  · exact absurd heq (by simp)
                · exact absurd heq (by simp)
              · split
                · exact cellsOk_merge_leaf_into_left _ _ _ _ _ _ _ _ _ _ hn h
                · exact cellsOk_merge_leaf_into_right _ _ _ _ _ _ _ _ _ _ _ hn h
        · exact h
    · exact h

theorem cellsOk_leaf_node_delete {s : DB} (fuel : Nat) (cur : Cursor) (h : cellsOk s) :
    cellsOk (leaf_node_delete s fuel cur) := by
  unfold leaf_node_delete
  split
  · rename_i r par cells nx heq
    try dsimp only
    split
    · exact cellsOk_handle_leaf _ _ _
        (cellsOk_setPage_leaf _ _ _ _ (cellsPred_eraseAt _ (pageOk_of_get h heq)) h)
    · exact cellsOk_setPage_leaf _ _ _ _ (cellsPred_eraseAt _ (pageOk_of_get h heq)) h
  · exact h

theorem find_key_location_found {s : DB} {fuel key : Nat} {cur : Cursor}
    (h : find_key_location s fuel key = some (cur, true)) :
    ∃ r par cells nx, s.store cur.page = Page.leaf r par cells nx ∧
      (cells.getD cur.cell dummyCell).1 = key := by
  unfold find_key_location at h
  split at h
  · exact absurd h (by simp)
  · rename_i cur' htf
    split at h
    · rename_i r par cells nx heq
      obtain ⟨hcur, hb⟩ := Prod.mk.inj (Option.some.inj h)
      subst hcur
      simp only [Bool.and_eq_true, decide_eq_true_eq, beq_iff_eq] at hb
      exact ⟨r, par, cells, nx, pager_get_page_some heq, hb.2⟩
    · rename_i heq
      obtain ⟨hcur, hb⟩ := Prod.mk.inj (Option.some.inj h)
      exact absurd hb (by simp)
    · exact absurd h (by simp)

theorem cellsOk_execute_insert {s : DB} (fuel : Nat) (row : Row) (h : cellsOk s) :
    cellsOk (execute_insert s fuel row).2 := by
  unfold execute_insert
  try dsimp only
  split
  · exact h
  · split
    · exact h
    · split
      · split
        · exact cellsOk_leaf_split_ins _ _ _ _ rfl h
        · exact cellsOk_leaf_node_insert _ _ _ rfl h
      · exact h

theorem cellsOk_execute_delete {s : DB} (fuel key : Nat) (h : cellsOk s) :
    cellsOk (execute_delete s fuel key).2 := by
  unfold execute_delete
  split
  · exact h
  · split
    · exact cellsOk_leaf_node_delete _ _ h
    · exact h

theorem cellsOk_execute_update {s : DB} (fuel : Nat) (row : Row) (h : cellsOk s) :
    cellsOk (execute_update s fuel row).2 := by
  unfold execute_update
  split
  · exact h
  · rename_i cur found hfkl
    split
    · rename_i hfound
      split
      · rename_i r par cells nx heq
        have hf2 : find_key_location s fuel row.id = some (cur, true) := by
          rw [← hfound]
          exact hfkl
        obtain ⟨r', par', cells', nx', hst, hkey⟩ := find_key_location_found hf2
        have hsame : Page.leaf r' par' cells' nx' = Page.leaf r par cells nx := by
          rw [← hst, pager_get_page_some heq]
        have hcq : cells' = cells := by
          injection hsame
        rw [hcq] at hkey
        exact cellsOk_setPage_leaf _ _ _ _
          (cellsPred_set _ hkey (pageOk_of_get h heq)) h
      · exact h
    · exact h

theorem cellsOk_emptyDB : cellsOk emptyDB := by
  intro p
  show pageOk (storeGet emptyDB.pages p)
  simp only [emptyDB, storeGet]
  split
  · exact cellsPred_nil
  · exact pageOk_zeroed

/-- C10: in every state reachable from the empty database by insert,
update, and delete commands, every leaf cell's key equals the id of the row
stored in that cell's value: insert always writes the key together with a
row of the same id, and update only overwrites the value of a cell whose
key already equals the new row's id. -/
theorem c10_leaf_key_matches_row_id (s : DB) (hs : Reach s) :
    ∀ (p k : Nat) (r : Row), (k, r) ∈ leafCellsOf (s.store p) → k = r.id := by
  have h : cellsOk s := by
    induction hs with
    | start => exact cellsOk_emptyDB
    | ins s fuel row _ ih => exact cellsOk_execute_insert fuel row ih
    | upd s fuel row _ ih => exact cellsOk_execute_update fuel row ih
    | del s fuel key _ ih => exact cellsOk_execute_delete fuel key ih
  intro p k r hm
  exact h p (k, r) hm

theorem c10_leaf_key_matches_row_id_witness : (1 : Nat) = (mkRow 1).id :=
  c10_leaf_key_matches_row_id (execute_insert emptyDB FUEL (mkRow 1)).2
    (Reach.ins emptyDB FUEL (mkRow 1) Reach.start) 0 1 (mkRow 1) (by decide)

end DBVerify
